import Mathlib

/-!
Shallow embedding of the DEV_DB_Cloner core (data_anonymizer.py,
config_manager.py, db_replicator.py) and verification of its
specification claims.

Strings from the Python side are modelled as `List Char` (Python strings
are sequences of code points) except where `String` is more direct.
Python's `random.Random(seed)` is modelled as an abstract draw stream
`rng : Nat → Nat`: the k-th call to the generator inside one transform
invocation reads `rng k`; bounded draws (`randint`, `choice`) take the
draw modulo the range size, which is faithful to the generator being a
deterministic function of the seed.
-/

namespace DBCloner

/-! ## data_anonymizer.py: anonymize_id -/

/-- Python `re.match(r'^[A-Z][0-9]{9}$', s)` specialised to the
10-character strings it is applied to: first char ASCII `A`-`Z`, the
remaining nine chars ASCII `0`-`9`. -/
def idPatternOk : List Char → Bool
  | [] => false
  | c :: rest => c.isUpper && rest.all Char.isDigit

/-- `anonymize_id` from data_anonymizer.py.  Empty or non-10-length
input is returned unchanged; a 10-char value failing the pattern is
fully masked; a matching value keeps chars 0-2 and 8-9 and masks
chars 3-7. -/
def anonymize_id (id_number : List Char) : List Char :=
  if id_number.length ≠ 10 then id_number
  else if ¬ idPatternOk id_number then List.replicate 10 '*'
  else id_number.take 3 ++ List.replicate 5 '*' ++ id_number.drop 8

example : anonymize_id "A123456789".toList = "A12*****89".toList := by decide

example : anonymize_id "1234567890".toList = "**********".toList := by decide

example : anonymize_id "A1234".toList = "A1234".toList := by decide

/-- C1: the claim states that every non-conforming input (wrong length or
pattern) becomes ten `*`.  The code returns wrong-length input unchanged:
`anonymize_id "A1234"` is `"A1234"`, not `"**********"`. -/
theorem C1_idMask_counterexample :
    anonymize_id "A1234".toList = "A1234".toList ∧
    anonymize_id "A1234".toList ≠ "**********".toList := by decide

/-- C1 (amended): inputs of length other than 10 are returned unchanged;
length-10 inputs failing `^[A-Z][0-9]{9}$` become ten `*`; length-10
matching inputs keep every character except positions 3–7, which become
`*`. -/
theorem C1_idMask_amended (s : List Char) :
    (s.length ≠ 10 → anonymize_id s = s) ∧
    (s.length = 10 → idPatternOk s = false →
      anonymize_id s = List.replicate 10 '*') ∧
    (s.length = 10 → idPatternOk s = true →
      (anonymize_id s).length = 10 ∧
      ∀ i < 10, (anonymize_id s).getD i ' ' =
        if 3 ≤ i ∧ i ≤ 7 then '*' else s.getD i ' ') := by
  refine ⟨fun h => by simp [anonymize_id, h], fun h hp => by simp [anonymize_id, h, hp], ?_⟩
  intro hlen hp
  rcases s with _|⟨a0,_|⟨a1,_|⟨a2,_|⟨a3,_|⟨a4,_|⟨a5,_|⟨a6,_|⟨a7,_|⟨a8,_|⟨a9,rest⟩⟩⟩⟩⟩⟩⟩⟩⟩⟩ <;>
    simp_all
  obtain rfl : rest = [] := by
    cases rest with
    | nil => rfl
    | cons x xs => simp at hlen
  refine ⟨by simp [anonymize_id, hp], ?_⟩
  intro i hi
  interval_cases i <;> simp [anonymize_id, hp]

/-- Witness for C1_idMask_amended at the concrete input `"A123456789"`. -/
theorem C1_idMask_amended_witness :
    (anonymize_id "A123456789".toList).getD 3 ' ' = '*' := by
  have h := ((C1_idMask_amended "A123456789".toList).2.2 (by decide) (by decide)).2 3 (by decide)
  simpa using h

/-! ## data_anonymizer.py: obfuscate_phone

Python `random.Random(hash(str(seed)))` is modelled by the abstract
draw stream `rng`; the `failed` flag models an exception being raised
inside the `try` block (the `except` handler returns `phone`). -/

/-- The ten ASCII digit characters; `str(rng.randint(0, 9))` is one of
these. -/
def digitChars : List Char := ['0', '1', '2', '3', '4', '5', '6', '7', '8', '9']

/-- The character produced by the k-th `str(rng.randint(0, 9))` draw. -/
def randDigitChar (rng : Nat → Nat) (k : Nat) : Char :=
  digitChars.getD (rng k % 10) '0'

/-- `[i for i, char in enumerate(phone) if char.isdigit()]`. -/
def digitIndices (l : List Char) : List Nat :=
  ((l.enum).filter (fun p => p.2.isDigit)).map Prod.fst

/-- The loop `for idx in target_indices: chars[idx] = str(rng.randint(0, 9))`
over an enumerated list of targets. -/
def setDigitsAux (rng : Nat → Nat) (cs : List Char) (ps : List (Nat × Nat)) : List Char :=
  ps.foldl (fun cs ki => cs.set ki.2 (randDigitChar rng ki.1)) cs

def setDigits (rng : Nat → Nat) (cs : List Char) (targets : List Nat) : List Char :=
  setDigitsAux rng cs targets.enum

/-- `obfuscate_phone` from data_anonymizer.py. -/
def obfuscate_phone (rng : Nat → Nat) (failed : Bool) (phone : List Char) : List Char :=
  if phone = [] then phone
  else if failed then phone
  else
    let digit_indices := digitIndices phone
    if digit_indices.length < 5 then phone
    else setDigits rng phone (digit_indices.drop (digit_indices.length - 5))

theorem setDigitsAux_cons (rng : Nat → Nat) (cs : List Char) (p : Nat × Nat)
    (ps : List (Nat × Nat)) :
    setDigitsAux rng cs (p :: ps) = setDigitsAux rng (cs.set p.2 (randDigitChar rng p.1)) ps :=
  rfl

theorem length_setDigitsAux (rng : Nat → Nat) (ps : List (Nat × Nat)) (cs : List Char) :
    (setDigitsAux rng cs ps).length = cs.length := by
  induction ps generalizing cs with
  | nil => rfl
  | cons p ps ih => rw [setDigitsAux_cons, ih, List.length_set]

theorem getD_setDigitsAux_notMem (rng : Nat → Nat) (ps : List (Nat × Nat)) (cs : List Char)
    (j : Nat) (hj : j ∉ ps.map Prod.snd) (d : Char) :
    (setDigitsAux rng cs ps).getD j d = cs.getD j d := by
  induction ps generalizing cs with
  | nil => rfl
  | cons p ps ih =>
    simp only [List.map_cons, List.mem_cons, not_or] at hj
    rw [setDigitsAux_cons, ih _ hj.2, List.getD_eq_getElem?_getD,
      List.getElem?_set_ne (fun h => hj.1 h.symm), ← List.getD_eq_getElem?_getD]

theorem getD_setDigitsAux_mem (rng : Nat → Nat) (ps : List (Nat × Nat)) (cs : List Char)
    (k j : Nat) (hmem : (k, j) ∈ ps) (hnd : (ps.map Prod.snd).Nodup) (hj : j < cs.length)
    (d : Char) :
    (setDigitsAux rng cs ps).getD j d = randDigitChar rng k := by
  induction ps generalizing cs with
  | nil => simp at hmem
  | cons p ps ih =>
    simp only [List.map_cons, List.nodup_cons] at hnd
    rw [setDigitsAux_cons]
    rcases List.mem_cons.mp hmem with heq | htail
    · rw [getD_setDigitsAux_notMem rng ps _ j (by rw [← heq] at hnd; exact hnd.1) d,
        List.getD_eq_getElem?_getD, ← heq, List.getElem?_set_self (by simpa using hj)]
      rfl
    · exact ih _ htail hnd.2 (by simpa [List.length_set] using hj)

theorem digitIndices_sublist_range (l : List Char) :
    (digitIndices l).Sublist (List.range l.length) := by
  have h1 : (digitIndices l).Sublist (l.enum.map Prod.fst) :=
    List.Sublist.map _ (List.filter_sublist _)
  rwa [List.enum_map_fst] at h1

theorem digitIndices_nodup (l : List Char) : (digitIndices l).Nodup :=
  (digitIndices_sublist_range l).nodup (List.nodup_range _)

theorem mem_digitIndices (l : List Char) (i : Nat) (h : i ∈ digitIndices l) :
    i < l.length ∧ (l.getD i ' ').isDigit = true := by
  obtain ⟨⟨i', c⟩, hmem, hfst⟩ := List.mem_map.mp h
  obtain ⟨henum, hdig⟩ := List.mem_filter.mp hmem
  have hget : l[i']? = some c := List.mem_enum_iff_getElem?.mp henum
  subst hfst
  constructor
  · by_contra hlt
    rw [List.getElem?_eq_none (by omega : l.length ≤ i')] at hget
    exact Option.noConfusion hget
  · rw [List.getD_eq_getElem?_getD, hget]
    exact hdig

theorem length_digitIndices_enumFrom (l : List Char) (n : Nat) :
    (l.enumFrom n).countP (fun p => p.2.isDigit) = l.countP Char.isDigit := by
  induction l generalizing n with
  | nil => rfl
  | cons a l ih => simp [List.countP_cons, ih]

theorem length_digitIndices (l : List Char) :
    (digitIndices l).length = l.countP Char.isDigit := by
  unfold digitIndices
  rw [List.length_map, ← List.countP_eq_length_filter]
  exact length_digitIndices_enumFrom l 0

theorem randDigitChar_isDigit (rng : Nat → Nat) (k : Nat) :
    (randDigitChar rng k).isDigit = true := by
  have h : rng k % 10 < 10 := Nat.mod_lt _ (by norm_num)
  unfold randDigitChar digitChars
  interval_cases h : rng k % 10 <;> simp

/-- The index list `digit_indices[-5:]` used by `obfuscate_phone`. -/
def lastFiveDigitTargets (phone : List Char) : List Nat :=
  (digitIndices phone).drop ((digitIndices phone).length - 5)

theorem lastFiveDigitTargets_sublist (phone : List Char) :
    (lastFiveDigitTargets phone).Sublist (digitIndices phone) :=
  List.drop_sublist _ _

example : obfuscate_phone (fun k => k + 3) false "02-1234-5678".toList =
    "02-1233-4567".toList := by decide

example : obfuscate_phone (fun k => k + 3) false "02-12".toList = "02-12".toList := by decide

/-- C3: `obfuscate_phone` returns a value with fewer than 5 digit
characters unchanged; otherwise it keeps the length and every character
outside the last 5 digit positions, and writes the k-th seeded random
digit character at the k-th of the last 5 digit positions. -/
theorem C3_phoneMask (rng : Nat → Nat) (phone : List Char) :
    (phone.countP Char.isDigit < 5 → obfuscate_phone rng false phone = phone) ∧
    (5 ≤ phone.countP Char.isDigit →
      (lastFiveDigitTargets phone).length = 5 ∧
      (obfuscate_phone rng false phone).length = phone.length ∧
      (∀ i ∈ lastFiveDigitTargets phone, (phone.getD i ' ').isDigit = true) ∧
      (∀ i, i ∉ lastFiveDigitTargets phone →
        (obfuscate_phone rng false phone).getD i ' ' = phone.getD i ' ') ∧
      (∀ k, k < 5 →
        (obfuscate_phone rng false phone).getD ((lastFiveDigitTargets phone).getD k 0) ' ' =
          randDigitChar rng k ∧ (randDigitChar rng k).isDigit = true)) := by
  constructor
  · intro hlt
    have hdi : (digitIndices phone).length < 5 := by rw [length_digitIndices]; exact hlt
    by_cases hnil : phone = []
    · simp [obfuscate_phone, hnil]
    · simp [obfuscate_phone, hnil, hdi]
  · intro hge
    have hge' : 5 ≤ (digitIndices phone).length := by rw [length_digitIndices]; exact hge
    have hnil : phone ≠ [] := by
      intro h; subst h; simp at hge
    have hres : obfuscate_phone rng false phone =
        setDigits rng phone (lastFiveDigitTargets phone) := by
      simp [obfuscate_phone, hnil, Nat.not_lt.mpr hge', lastFiveDigitTargets]
    have htlen : (lastFiveDigitTargets phone).length = 5 := by
      unfold lastFiveDigitTargets; rw [List.length_drop]; omega
    have hnd : (lastFiveDigitTargets phone).Nodup :=
      (lastFiveDigitTargets_sublist phone).nodup (digitIndices_nodup phone)
    have hmemT : ∀ i ∈ lastFiveDigitTargets phone,
        i < phone.length ∧ (phone.getD i ' ').isDigit = true :=
      fun i hi => mem_digitIndices phone i ((lastFiveDigitTargets_sublist phone).subset hi)
    refine ⟨htlen, ?_, fun i hi => (hmemT i hi).2, ?_, ?_⟩
    · rw [hres]; exact length_setDigitsAux rng _ phone
    · intro i hi
      rw [hres]
      exact getD_setDigitsAux_notMem rng _ phone i
        (by rw [List.enum_map_snd]; exact hi) ' '
    · intro k hk
      refine ⟨?_, randDigitChar_isDigit rng k⟩
      have hk' : k < (lastFiveDigitTargets phone).length := by omega
      have hgetD : (lastFiveDigitTargets phone).getD k 0 = (lastFiveDigitTargets phone)[k] := by
        rw [List.getD_eq_getElem?_getD, List.getElem?_eq_getElem hk']
        rfl
      have hsome : (lastFiveDigitTargets phone)[k]? =
          some ((lastFiveDigitTargets phone).getD k 0) := by
        rw [List.getElem?_eq_getElem hk', hgetD]
      have hmem : (k, (lastFiveDigitTargets phone).getD k 0) ∈
          (lastFiveDigitTargets phone).enum :=
        List.mem_enum_iff_getElem?.mpr hsome
      have htmem : (lastFiveDigitTargets phone).getD k 0 ∈ lastFiveDigitTargets phone := by
        rw [hgetD]; exact List.getElem_mem hk'
      rw [hres]
      exact getD_setDigitsAux_mem rng _ phone k _ hmem
        (by rw [List.enum_map_snd]; exact hnd) (hmemT _ htmem).1 ' '

/-- Witness for C3_phoneMask at `"02-1234-5678"`: the two dashes stay,
and the value `"02-12"` with fewer than 5 digits is unchanged. -/
theorem C3_phoneMask_witness :
    (obfuscate_phone (fun k => k) false "02-1234-5678".toList).getD 2 ' ' = '-' ∧
    obfuscate_phone (fun k => k) false "02-12".toList = "02-12".toList := by
  constructor
  · have h := ((C3_phoneMask (fun k => k) "02-1234-5678".toList).2 (by decide)).2.2.2.1
      2 (by decide)
    rw [h]; decide
  · exact (C3_phoneMask (fun k => k) "02-12".toList).1 (by decide)

/-! ## data_anonymizer.py: init_names_from_database

Python's string comparison and `sorted` order strings lexicographically
by code point; `charListLe` is that order on `List Char`, and
`sortedUnique` is `sorted(list(set(...)))`. -/

/-- Lexicographic code-point comparison, Python `s1 <= s2`. -/
def charListLe : List Char → List Char → Bool
  | [], _ => true
  | _ :: _, [] => false
  | a :: as, b :: bs => if a < b then true else if b < a then false else charListLe as bs

def sortedInsert (x : List Char) : List (List Char) → List (List Char)
  | [] => [x]
  | y :: ys => if charListLe x y then x :: y :: ys else y :: sortedInsert x ys

/-- Python `sorted(list(s))` for a set `s` collected as a list. -/
def sortedUnique (l : List (List Char)) : List (List Char) :=
  l.dedup.foldr sortedInsert []

theorem charListLe_total (a b : List Char) :
    charListLe a b = true ∨ charListLe b a = true := by
  induction a generalizing b with
  | nil => left; rfl
  | cons x xs ih =>
    cases b with
    | nil => right; rfl
    | cons y ys =>
      by_cases h1 : x < y
      · left; simp [charListLe, h1]
      · by_cases h2 : y < x
        · right; simp [charListLe, h2]
        · rcases ih ys with h | h
          · left; simp [charListLe, h1, h2, h]
          · right; simp [charListLe, h1, h2, h]

theorem charListLe_trans (a b c : List Char) (h1 : charListLe a b = true)
    (h2 : charListLe b c = true) : charListLe a c = true := by
  induction a generalizing b c with
  | nil => rfl
  | cons x xs ih =>
    cases b with
    | nil => simp [charListLe] at h1
    | cons y ys =>
      cases c with
      | nil => simp [charListLe] at h2
      | cons z zs =>
        by_cases h1a : x < y
        · by_cases h2a : y < z
          · simp [charListLe, lt_trans h1a h2a]
          · by_cases h2b : z < y
            · simp [charListLe, h2a, h2b] at h2
            · obtain rfl : y = z := le_antisymm (not_lt.mp h2b) (not_lt.mp h2a)
              simp [charListLe, h1a]
        · by_cases h1b : y < x
          · simp [charListLe, h1a, h1b] at h1
          · obtain rfl : x = y := le_antisymm (not_lt.mp h1b) (not_lt.mp h1a)
            simp only [charListLe, h1a, if_false, ite_self, if_neg h1b] at h1
            by_cases h2a : x < z
            · simp [charListLe, h2a]
            · by_cases h2b : z < x
              · simp [charListLe, h2a, h2b] at h2
              · simp only [charListLe, h2a, if_false, if_neg h2b] at h2 ⊢
                exact ih ys zs h1 h2

theorem sortedInsert_perm (x : List Char) (l : List (List Char)) :
    (sortedInsert x l).Perm (x :: l) := by
  induction l with
  | nil => rfl
  | cons y ys ih =>
    unfold sortedInsert
    by_cases h : charListLe x y
    · simp [h]
    · simp only [h, if_false, Bool.false_eq_true]
      exact (ih.cons y).trans (List.Perm.swap x y ys)

theorem mem_sortedInsert (x a : List Char) (l : List (List Char)) :
    a ∈ sortedInsert x l ↔ a = x ∨ a ∈ l := by
  rw [(sortedInsert_perm x l).mem_iff, List.mem_cons]

theorem sortedInsert_sorted (x : List Char) (l : List (List Char))
    (h : l.Pairwise (fun a b => charListLe a b = true)) :
    (sortedInsert x l).Pairwise (fun a b => charListLe a b = true) := by
  induction l with
  | nil => simp [sortedInsert]
  | cons y ys ih =>
    rcases List.pairwise_cons.mp h with ⟨hy, hys⟩
    unfold sortedInsert
    by_cases hle : charListLe x y
    · simp only [hle, if_true]
      refine List.pairwise_cons.mpr ⟨?_, h⟩
      intro b hb
      rcases List.mem_cons.mp hb with rfl | hmem
      · exact hle
      · exact charListLe_trans x y b hle (hy b hmem)
    · simp only [hle, if_false, Bool.false_eq_true]
      refine List.pairwise_cons.mpr ⟨?_, ih hys⟩
      intro b hb
      rcases (mem_sortedInsert x b ys).mp hb with rfl | hmem
      · rcases charListLe_total y b with ht | ht
        · exact ht
        · exact absurd ht (by simpa using hle)
      · exact hy b hmem

theorem sortedUnique_perm (l : List (List Char)) : (sortedUnique l).Perm l.dedup := by
  unfold sortedUnique
  induction l.dedup with
  | nil => rfl
  | cons y ys ih => exact (sortedInsert_perm y (ys.foldr sortedInsert [])).trans (ih.cons y)

theorem mem_sortedUnique (a : List Char) (l : List (List Char)) :
    a ∈ sortedUnique l ↔ a ∈ l := by
  rw [(sortedUnique_perm l).mem_iff, List.mem_dedup]

theorem sortedUnique_nodup (l : List (List Char)) : (sortedUnique l).Nodup :=
  ((sortedUnique_perm l).symm.nodup (List.nodup_dedup l))

theorem sortedUnique_sorted (l : List (List Char)) :
    (sortedUnique l).Pairwise (fun a b => charListLe a b = true) := by
  unfold sortedUnique
  induction l.dedup with
  | nil => simp
  | cons y ys ih => exact sortedInsert_sorted y _ ih

theorem sortedUnique_eq_nil_iff (l : List (List Char)) : sortedUnique l = [] ↔ l = [] := by
  constructor
  · intro h
    cases l with
    | nil => rfl
    | cons a as =>
      have : a ∈ sortedUnique (a :: as) := (mem_sortedUnique a _).mpr (List.mem_cons_self a as)
      rw [h] at this
      exact absurd this (List.not_mem_nil a)
  · intro h; subst h; rfl

/-- Python `str.strip()`: remove leading and trailing whitespace. -/
def pyStrip (l : List Char) : List Char :=
  ((l.dropWhile Char.isWhitespace).reverse.dropWhile Char.isWhitespace).reverse

/-- The per-row logic of `init_names_from_database`: `name = row[0].strip()`,
then split by the code-point length of the *stripped* name: 2 → first char
and second char, 3 → first char and `name[1:]`, 4 → `name[:2]` and
`name[2:]`, anything else discarded. -/
def splitName (raw : List Char) : Option (List Char × List Char) :=
  let name := pyStrip raw
  if name.length = 2 then some (name.take 1, name.drop 1)
  else if name.length = 3 then some (name.take 1, name.drop 1)
  else if name.length = 4 then some (name.take 2, name.drop 2)
  else none

/-- The SURNAMES/GIVEN_NAMES global pools. -/
structure NamePools where
  surnames : List (List Char)
  given_names : List (List Char)
deriving DecidableEq, Repr

/-- `init_names_from_database` from data_anonymizer.py: `rows` are the
distinct non-null fetched column values; on success the pools become the
sorted duplicate-free aggregates, on failure (`new_surnames` or
`new_given_names` empty) the previous pools are kept and `False` is
returned. -/
def init_names_from_database (rows : List (List Char)) (current : NamePools) :
    Bool × NamePools :=
  let contribs := rows.filterMap splitName
  let new_surnames := sortedUnique (contribs.map Prod.fst)
  let new_given_names := sortedUnique (contribs.map Prod.snd)
  if new_surnames ≠ [] ∧ new_given_names ≠ [] then
    (true, ⟨new_surnames, new_given_names⟩)
  else
    (false, current)

theorem init_names_pos (rows : List (List Char)) (current : NamePools)
    (hc : sortedUnique (((rows.filterMap splitName)).map Prod.fst) ≠ [] ∧
      sortedUnique (((rows.filterMap splitName)).map Prod.snd) ≠ []) :
    init_names_from_database rows current =
      (true, ⟨sortedUnique (((rows.filterMap splitName)).map Prod.fst),
              sortedUnique (((rows.filterMap splitName)).map Prod.snd)⟩) := by
  unfold init_names_from_database
  exact if_pos hc

theorem init_names_neg (rows : List (List Char)) (current : NamePools)
    (hc : ¬(sortedUnique (((rows.filterMap splitName)).map Prod.fst) ≠ [] ∧
      sortedUnique (((rows.filterMap splitName)).map Prod.snd) ≠ [])) :
    init_names_from_database rows current = (false, current) := by
  unfold init_names_from_database
  exact if_neg hc

example : init_names_from_database ["王小明".toList, "李大".toList, "歐陽修身".toList]
    ⟨[], []⟩ =
    (true, ⟨["李".toList, "歐陽".toList, "王".toList],
            ["修身".toList, "大".toList, "小明".toList]⟩) := by decide

/-- C4: the claim splits each fetched name by its own code-point length,
but the code strips whitespace first: the length-3 fetched value
`"王明 "` is treated as the 2-character name `"王明"`, yielding given
name `"明"`, not the claimed 2-character given name `"明 "`. -/
theorem C4_corpus_counterexample :
    "王明 ".toList.length = 3 ∧
    init_names_from_database ["王明 ".toList] ⟨[], []⟩ =
      (true, ⟨["王".toList], ["明".toList]⟩) ∧
    ["明".toList] ≠ ["明 ".toList] := by decide

/-- C4 (amended): each fetched name is first stripped of surrounding
whitespace; the split is by the stripped name's code-point length
(2 → 1+1, 3 → 1+2, 4 → 2+2, otherwise discarded); results are
aggregated into sorted duplicate-free pools; the source fails, leaving
the previous pools in place, exactly when no name contributes. -/
theorem C4_corpus_amended (rows : List (List Char)) (current : NamePools) :
    (∀ raw a b, pyStrip raw = [a, b] → splitName raw = some ([a], [b])) ∧
    (∀ raw a b c, pyStrip raw = [a, b, c] → splitName raw = some ([a], [b, c])) ∧
    (∀ raw a b c d, pyStrip raw = [a, b, c, d] → splitName raw = some ([a, b], [c, d])) ∧
    (∀ raw, (pyStrip raw).length < 2 ∨ 4 < (pyStrip raw).length → splitName raw = none) ∧
    ((init_names_from_database rows current).1 = false →
      (init_names_from_database rows current).2 = current) ∧
    ((init_names_from_database rows current).1 = false ↔
      ∀ raw ∈ rows, splitName raw = none) ∧
    ((init_names_from_database rows current).1 = true →
      (∀ s, s ∈ (init_names_from_database rows current).2.surnames ↔
        ∃ raw ∈ rows, ∃ g, splitName raw = some (s, g)) ∧
      (∀ g, g ∈ (init_names_from_database rows current).2.given_names ↔
        ∃ raw ∈ rows, ∃ s, splitName raw = some (s, g)) ∧
      (init_names_from_database rows current).2.surnames.Nodup ∧
      (init_names_from_database rows current).2.given_names.Nodup ∧
      (init_names_from_database rows current).2.surnames.Pairwise
        (fun a b => charListLe a b = true) ∧
      (init_names_from_database rows current).2.given_names.Pairwise
        (fun a b => charListLe a b = true)) := by
  refine ⟨?_, ?_, ?_, ?_, ?_, ?_, ?_⟩
  · intro raw a b h; simp [splitName, h]
  · intro raw a b c h; simp [splitName, h]
  · intro raw a b c d h; simp [splitName, h]
  · intro raw h
    rcases h with h | h
    · unfold splitName
      simp only []
      have h2 : (pyStrip raw).length ≠ 2 := by omega
      have h3 : (pyStrip raw).length ≠ 3 := by omega
      have h4 : (pyStrip raw).length ≠ 4 := by omega
      simp [h2, h3, h4]
    · have h2 : (pyStrip raw).length ≠ 2 := by omega
      have h3 : (pyStrip raw).length ≠ 3 := by omega
      have h4 : (pyStrip raw).length ≠ 4 := by omega
      simp [splitName, h2, h3, h4]
  · intro hfail
    by_cases hc : sortedUnique ((rows.filterMap splitName).map Prod.fst) ≠ [] ∧
        sortedUnique ((rows.filterMap splitName).map Prod.snd) ≠ []
    · rw [init_names_pos rows current hc] at hfail
      exact absurd hfail (by simp)
    · rw [init_names_neg rows current hc]
  · by_cases hc : sortedUnique ((rows.filterMap splitName).map Prod.fst) ≠ [] ∧
        sortedUnique ((rows.filterMap splitName).map Prod.snd) ≠ []
    · rw [init_names_pos rows current hc]
      constructor
      · intro h; exact absurd h (by simp)
      · intro hall
        exfalso
        rcases hc with ⟨hs, _⟩
        rw [Ne, sortedUnique_eq_nil_iff, List.map_eq_nil_iff] at hs
        rw [List.filterMap_eq_nil_iff] at hs
        exact hs hall
    · rw [init_names_neg rows current hc]
      constructor
      · intro _
        intro raw hraw
        by_contra hne
        apply hc
        have hmem : ∃ pr, pr ∈ rows.filterMap splitName := by
          rcases Option.ne_none_iff_exists'.mp hne with ⟨pr, hpr⟩
          exact ⟨pr, List.mem_filterMap.mpr ⟨raw, hraw, hpr⟩⟩
        rcases hmem with ⟨pr, hpr⟩
        constructor
        · rw [Ne, sortedUnique_eq_nil_iff]
          intro hnil
          rw [List.map_eq_nil_iff] at hnil
          rw [hnil] at hpr
          exact absurd hpr (List.not_mem_nil pr)
        · rw [Ne, sortedUnique_eq_nil_iff]
          intro hnil
          rw [List.map_eq_nil_iff] at hnil
          rw [hnil] at hpr
          exact absurd hpr (List.not_mem_nil pr)
      · intro _; rfl
  · intro htrue
    by_cases hc : sortedUnique ((rows.filterMap splitName).map Prod.fst) ≠ [] ∧
        sortedUnique ((rows.filterMap splitName).map Prod.snd) ≠ []
    · rw [init_names_pos rows current hc]
      refine ⟨?_, ?_, sortedUnique_nodup _, sortedUnique_nodup _,
        sortedUnique_sorted _, sortedUnique_sorted _⟩
      · intro s
        rw [show ((true, ⟨sortedUnique ((rows.filterMap splitName).map Prod.fst),
              sortedUnique ((rows.filterMap splitName).map Prod.snd)⟩) :
            Bool × NamePools).2.surnames =
            sortedUnique ((rows.filterMap splitName).map Prod.fst) from rfl]
        rw [mem_sortedUnique, List.mem_map]
        constructor
        · rintro ⟨⟨s', g⟩, hpr, rfl⟩
          rcases List.mem_filterMap.mp hpr with ⟨raw, hraw, hsplit⟩
          exact ⟨raw, hraw, g, hsplit⟩
        · rintro ⟨raw, hraw, g, hsplit⟩
          exact ⟨(s, g), List.mem_filterMap.mpr ⟨raw, hraw, hsplit⟩, rfl⟩
      · intro g
        rw [show ((true, ⟨sortedUnique ((rows.filterMap splitName).map Prod.fst),
              sortedUnique ((rows.filterMap splitName).map Prod.snd)⟩) :
            Bool × NamePools).2.given_names =
            sortedUnique ((rows.filterMap splitName).map Prod.snd) from rfl]
        rw [mem_sortedUnique, List.mem_map]
        constructor
        · rintro ⟨⟨s, g'⟩, hpr, rfl⟩
          rcases List.mem_filterMap.mp hpr with ⟨raw, hraw, hsplit⟩
          exact ⟨raw, hraw, s, hsplit⟩
        · rintro ⟨raw, hraw, s, hsplit⟩
          exact ⟨(s, g), List.mem_filterMap.mpr ⟨raw, hraw, hsplit⟩, rfl⟩
    · rw [init_names_neg rows current hc] at htrue
      exact absurd htrue (by simp)

/-- Witness for C4_corpus_amended on a concrete fetch: both pools
populated, sorted, and the expected memberships hold. -/
theorem C4_corpus_amended_witness :
    "王小明".toList ∈ (["王小明".toList] : List (List Char)) ∧
    "王".toList ∈ (init_names_from_database ["王小明".toList] ⟨[], []⟩).2.surnames := by
  refine ⟨List.mem_cons_self _ _, ?_⟩
  have h := ((C4_corpus_amended ["王小明".toList] ⟨[], []⟩).2.2.2.2.2.2 (by decide)).1
    "王".toList
  exact (h).mpr ⟨"王小明".toList, List.mem_cons_self _ _, "小明".toList, by decide⟩


/-! ## data_anonymizer.py: name / address transforms and their error
fallbacks

`random.Random(hash(...))` is again modelled by abstract draws: `d1`,`d2`
are the two `rng.choice` draws (`obfuscate_spouse_name` seeds its
generator from `hash(emp_no) + 139420`, which only changes the stream,
not the shape). `failed` models an unexpected exception raised inside
the `try` block; an empty pool is a concrete such failure
(`rng.choice([])` raises IndexError). -/

/-- `rng.choice(pool)`: `none` when the pool is empty (IndexError). -/
def rngChoice (draw : Nat) (pool : List (List Char)) : Option (List Char) :=
  pool.get? (draw % pool.length)

/-- The except-handler fallback of `obfuscate_name`:
`name[0] + 'O' + name[-1] if len(name) > 2 else name`. -/
def nameFallback (name : List Char) : List Char :=
  if 2 < name.length then [name.headD ' ', 'O', name.getLastD ' '] else name

/-- `obfuscate_name` from data_anonymizer.py. -/
def obfuscate_name (surnames given_names : List (List Char)) (d1 d2 : Nat) (failed : Bool)
    (name emp_no : List Char) : List Char :=
  if name = [] ∨ emp_no = [] then name
  else if failed then nameFallback name
  else
    match rngChoice d1 surnames, rngChoice d2 given_names with
    | some s, some g => s ++ g
    | _, _ => nameFallback name

/-- `obfuscate_spouse_name` from data_anonymizer.py; its except handler
returns the original `name`. -/
def obfuscate_spouse_name (surnames given_names : List (List Char)) (d1 d2 : Nat)
    (failed : Bool) (name emp_no : List Char) : List Char :=
  if name = [] ∨ emp_no = [] then name
  else if failed then name
  else
    match rngChoice d1 surnames, rngChoice d2 given_names with
    | some s, some g => s ++ g
    | _, _ => name

/-- `clear_content` from data_anonymizer.py: always the empty string. -/
def clear_content (_val : List Char) : List Char := []

/-- `str.maketrans("０１２３４５６７８９", "0123456789")` composed with
`.replace('臺', '台')`, as a character map. -/
def normalizeChar (c : Char) : Char :=
  if c = '０' then '0' else if c = '１' then '1' else if c = '２' then '2'
  else if c = '３' then '3' else if c = '４' then '4' else if c = '５' then '5'
  else if c = '６' then '6' else if c = '７' then '7' else if c = '８' then '8'
  else if c = '９' then '9' else if c = '臺' then '台' else c

/-- The CITY_DISTRICTS table from data_anonymizer.py. -/
def CITY_DISTRICTS : List (String × List String) := [
  ("台北市", ["中正區", "大同區", "中山區", "松山區", "大安區", "萬華區", "信義區", "士林區", "北投區", "內湖區", "南港區", "文山區"]),
  ("新北市", ["板橋區", "三重區", "中和區", "永和區", "新莊區", "新店區", "樹林區", "鶯歌區", "三峽區", "淡水區", "汐止區", "瑞芳區", "土城區", "蘆洲區", "五股區", "泰山區", "林口區", "深坑區", "石碇區", "坪林區", "三芝區", "石門區", "八里區", "平溪區", "雙溪區", "貢寮區", "金山區", "萬里區", "烏來區"]),
  ("桃園市", ["桃園區", "中壢區", "大溪區", "楊梅區", "蘆竹區", "大園區", "龜山區", "八德區", "龍潭區", "平鎮區", "新屋區", "觀音區", "復興區"]),
  ("台中市", ["中區", "東區", "南區", "西區", "北區", "西屯區", "南屯區", "北屯區", "豐原區", "東勢區", "大甲區", "清水區", "沙鹿區", "梧棲區", "后里區", "神岡區", "潭子區", "大雅區", "新社區", "石岡區", "外埔區", "大安區", "烏日區", "大肚區", "龍井區", "霧峰區", "太平區", "大里區", "和平區"]),
  ("台南市", ["新營區", "鹽水區", "白河區", "柳營區", "後壁區", "東山區", "麻豆區", "下營區", "六甲區", "官田區", "大內區", "佳里區", "學甲區", "西港區", "七股區", "將軍區", "北門區", "新化區", "善化區", "新市區", "安定區", "山上區", "玉井區", "楠西區", "南化區", "左鎮區", "仁德區", "歸仁區", "關廟區", "龍崎區", "永康區", "東區", "南區", "北區", "安南區", "安平區", "中西區"]),
  ("高雄市", ["鹽埕區", "鼓山區", "左營區", "楠梓區", "三民區", "新興區", "前金區", "苓雅區", "前鎮區", "旗津區", "小港區", "鳳山區", "林園區", "大寮區", "大樹區", "大社區", "仁武區", "鳥松區", "岡山區", "橋頭區", "燕巢區", "田寮區", "阿蓮區", "路竹區", "湖內區", "茄萣區", "永安區", "彌陀區", "梓官區", "旗山區", "美濃區", "六龜區", "甲仙區", "杉林區", "內門區", "茂林區", "桃源區", "那瑪夏區"]),
  ("基隆市", ["中正區", "七堵區", "暖暖區", "仁愛區", "中山區", "安樂區", "信義區"]),
  ("新竹市", ["東區", "北區", "香山區"]),
  ("嘉義市", ["東區", "西區"]),
  ("新竹縣", ["竹北市", "竹東鎮", "新埔鎮", "關西鎮", "湖口鄉", "新豐鄉", "芎林鄉", "橫山鄉", "北埔鄉", "寶山鄉", "峨眉鄉", "尖石鄉", "五峰鄉"]),
  ("苗栗縣", ["苗栗市", "頭份市", "竹南鎮", "後龍鎮", "通霄鎮", "苑裡鎮", "卓蘭鎮", "造橋鄉", "西湖鄉", "頭屋鄉", "公館鄉", "銅鑼鄉", "三義鄉", "大湖鄉", "獅潭鄉", "三灣鄉", "南庄鄉", "泰安鄉"]),
  ("彰化縣", ["彰化市", "鹿港鎮", "和美鎮", "線西鄉", "伸港鄉", "福興鄉", "秀水鄉", "花壇鄉", "芬園鄉", "員林市", "溪湖鎮", "田中鎮", "大村鄉", "埔鹽鄉", "埔心鄉", "永靖鄉", "社頭鄉", "二水鄉", "北斗鎮", "二林鎮", "田尾鄉", "埤頭鄉", "芳苑鄉", "大城鄉", "竹塘鄉", "溪州鄉"]),
  ("南投縣", ["南投市", "埔里鎮", "草屯鎮", "竹山鎮", "集集鎮", "名間鄉", "鹿谷鄉", "中寮鄉", "魚池鄉", "國姓鄉", "水里鄉", "信義鄉", "仁愛鄉"]),
  ("雲林縣", ["斗六市", "斗南鎮", "虎尾鎮", "西螺鎮", "土庫鎮", "北港鎮", "古坑鄉", "大埤鄉", "莿桐鄉", "林內鄉", "二崙鄉", "崙背鄉", "麥寮鄉", "東勢鄉", "褒忠鄉", "台西鄉", "元長鄉", "四湖鄉", "口湖鄉", "水林鄉"]),
  ("嘉義縣", ["太保市", "朴子市", "布袋鎮", "大林鎮", "民雄鄉", "溪口鄉", "新港鄉", "六腳鄉", "東石鄉", "義竹鄉", "鹿草鄉", "水上鄉", "中埔鄉", "竹崎鄉", "梅山鄉", "番路鄉", "大埔鄉", "阿里山鄉"]),
  ("屏東縣", ["屏東市", "潮州鎮", "東港鎮", "恆春鎮", "萬丹鄉", "長治鄉", "麟洛鄉", "九如鄉", "里港鄉", "高樹鄉", "鹽埔鄉", "內埔鄉", "竹田鄉", "內埔鄉", "萬巒鄉", "內埔鄉", "崁頂鄉", "新埤鄉", "南州鄉", "林邊鄉", "琉球鄉", "佳冬鄉", "新園鄉", "枋寮鄉", "枋山鄉", "三地門鄉", "霧台鄉", "瑪家鄉", "泰武鄉", "來義鄉", "春日鄉", "獅子鄉", "牡丹鄉"]),
  ("宜蘭縣", ["宜蘭市", "羅東鎮", "蘇澳鎮", "頭城鎮", "礁溪鄉", "壯圍鄉", "員山鄉", "冬山鄉", "五結鄉", "三星鄉", "大同鄉", "南澳鄉"]),
  ("花蓮縣", ["花蓮市", "鳳林鎮", "玉里鎮", "新城鄉", "吉安鄉", "壽豐鄉", "光復鄉", "豐濱鄉", "瑞穗鄉", "富里鄉", "秀林鄉", "萬榮鄉", "卓溪鄉"]),
  ("台東縣", ["台東市", "成功鎮", "關山鎮", "卑南鄉", "鹿野鄉", "延平鄉", "海端鄉", "池上鄉", "東河鄉", "成功鎮", "長濱鄉", "太麻里鄉", "金峰鄉", "大武鄉", "達仁鄉", "蘭嶼鄉", "綠島鄉"]),
  ("澎湖縣", ["馬公市", "湖西鄉", "白沙鄉", "西嶼鄉", "望安鄉", "七美鄉"]),
  ("金門縣", ["金城鎮", "金湖鎮", "金沙鎮", "金寧鄉", "烈嶼鄉", "烏坵鄉"]),
  ("連江縣", ["南竿鄉", "北竿鄉", "莒光鄉", "東引鄉"])]

/-- The fixed road-name list of `obfuscate_address`. -/
def ROADS : List String :=
  ["中正路", "中山路", "中華路", "民生路", "民權路", "民族路", "建國路", "和平路", "信義路", "仁愛路"]

/-- `address.startswith(c)` on code-point lists. -/
def startsWithList : List Char → List Char → Bool
  | [], _ => true
  | _ :: _, [] => false
  | p :: ps, a :: as => p = a && startsWithList ps as

/-- The `for c in CITY_DISTRICTS.keys(): if address.startswith(c)` loop. -/
def findCity (addr : List Char) : Option (String × List String) :=
  CITY_DISTRICTS.find? (fun cd => startsWithList cd.1.toList addr)

/-- `re.sub(r'\\d+', lambda m: str(rng.randint(1, 999)), address)`: each
maximal digit run is replaced with the next seeded draw in 1..999. -/
def subDigitRuns (rng : Nat → Nat) : Nat → List Char → List Char
  | _, [] => []
  | k, c :: cs =>
    if c.isDigit then
      (toString (rng k % 999 + 1)).toList ++ subDigitRuns rng (k + 1) (cs.dropWhile Char.isDigit)
    else
      c :: subDigitRuns rng k cs
termination_by _ l => l.length
decreasing_by
  · have := List.Sublist.length_le (List.dropWhile_sublist (l := cs) Char.isDigit)
    simp
    omega
  · simp

/-- `obfuscate_address` from data_anonymizer.py: normalize, identify the
city, then either randomize digit runs (unknown city) or synthesize a
fresh district/road/section/lane/number address. The except handler
returns the input value. -/
def obfuscate_address (rng : Nat → Nat) (failed : Bool) (address : List Char) : List Char :=
  if address = [] then address
  else if failed then address
  else
    let addr := address.map normalizeChar
    match findCity addr with
    | none => subDigitRuns rng 0 addr
    | some (city, districts) =>
      match rngChoice (rng 0) (districts.map String.toList),
          rngChoice (rng 1) (ROADS.map String.toList) with
      | some nd, some road =>
        city.toList ++ nd ++ road ++ (toString (rng 2 % 5 + 1)).toList ++ "段".toList
          ++ (toString (rng 3 % 100 + 1)).toList ++ "巷".toList
          ++ (toString (rng 4 % 500 + 1)).toList ++ "號".toList
      | _, _ => addr

example : obfuscate_name ["陳".toList] ["志明".toList] 0 0 false "王小明".toList
    "1001".toList = "陳志明".toList := by decide

/-- C5: the claim says every transform falls back, on internal failure,
to a conservative masked form (first+last kept, middle replaced) rather
than the original value.  The code's except handlers return the
original: `obfuscate_phone` returns the phone unchanged when its try
block fails, and `obfuscate_spouse_name` returns the original name when
`rng.choice` fails on an empty pool. -/
theorem C5_fallback_counterexample :
    obfuscate_phone (fun k => k) true "0912345678".toList = "0912345678".toList ∧
    obfuscate_spouse_name [] [] 0 0 false "王小明".toList "1001".toList =
      "王小明".toList := by
  constructor
  · decide
  · decide

/-- C5 (amended): no transform lets an error escape (all are total), but
only `obfuscate_name` falls back to a masked form — and only for names
longer than 2 characters (`name[0] + 'O' + name[-1]`), returning the
name unchanged otherwise; `obfuscate_spouse_name`, `obfuscate_phone` and
`obfuscate_address` return the input value unchanged on internal
failure; `anonymize_id` and `clear_content` have no failure handler. -/
theorem C5_fallback_amended (sur giv : List (List Char)) (d1 d2 : Nat)
    (rng : Nat → Nat) (name emp_no phone addr : List Char) :
    (obfuscate_name sur giv d1 d2 true name emp_no =
      if name = [] ∨ emp_no = [] then name else nameFallback name) ∧
    (2 < name.length → nameFallback name = [name.headD ' ', 'O', name.getLastD ' ']) ∧
    (name.length ≤ 2 → nameFallback name = name) ∧
    obfuscate_spouse_name sur giv d1 d2 true name emp_no = name ∧
    obfuscate_phone rng true phone = phone ∧
    obfuscate_address rng true addr = addr := by
  refine ⟨?_, ?_, ?_, ?_, ?_, ?_⟩
  · by_cases h : name = [] ∨ emp_no = [] <;> simp [obfuscate_name, h]
  · intro h; simp [nameFallback, h]
  · intro h; simp [nameFallback, Nat.not_lt.mpr h]
  · by_cases h : name = [] ∨ emp_no = [] <;> simp [obfuscate_spouse_name, h]
  · by_cases h : phone = [] <;> simp [obfuscate_phone, h]
  · by_cases h : addr = [] <;> simp [obfuscate_address, h]

/-- Witness for C5_fallback_amended: the masked fallback of
`obfuscate_name` for a 3-character name, and the unchanged fallback for
a 2-character name. -/
theorem C5_fallback_amended_witness :
    obfuscate_name [] [] 0 0 true "王小明".toList "1001".toList = "王O明".toList ∧
    obfuscate_name [] [] 0 0 true "王明".toList "1001".toList = "王明".toList := by
  have h := C5_fallback_amended [] [] 0 0 (fun k => k) "王小明".toList "1001".toList [] []
  have h2 := C5_fallback_amended [] [] 0 0 (fun k => k) "王明".toList "1001".toList [] []
  constructor
  · rw [h.1, if_neg (by decide), h.2.1 (by decide)]
    decide
  · rw [h2.1, if_neg (by decide), h2.2.2.1 (by decide)]

/-! ## config_manager.py: ConfigManager

Project / ProjectTable / SensitiveColumn are modelled as plain record
collections; the SQLAlchemy session's commit-or-rollback behaviour is
modelled by `Except`: an `.error` result means the caller's store is
unchanged.  The store's uniqueness constraints (unique project id,
`uq_project_table`, `uq_table_column`) appear as `Nodup` hypotheses
where a proof needs them.  Python dicts are association lists without
duplicate keys; `updateAssoc` is `dict.update`. -/

structure SensitiveColumn where
  column_name : String
  function_name : String
  seed_column : Option String
deriving DecidableEq, Repr

structure ProjectTable where
  table_name : String
  is_selected : Bool
  filter_clause : Option String
  sensitive_columns : List SensitiveColumn
deriving DecidableEq, Repr

structure Project where
  id : Nat
  name : String
  name_source_type : String
  name_source_value : Option String
  tables : List ProjectTable
deriving DecidableEq, Repr

abbrev Store := List Project

/-- One (column → (function, seed)) rule set, in dict insertion order. -/
abbrev RuleMap := List (String × String × Option String)

/-- `session.get(Project, project_id)`. -/
def findProject (s : Store) (pid : Nat) : Option Project :=
  s.find? (fun p => p.id = pid)

/-- Dict lookup `m.get(k)` on an association list. -/
def lookupStr {α : Type} (m : List (String × α)) (k : String) : Option α :=
  (m.find? (fun kv => kv.1 = k)).map Prod.snd

/-- `dict.update`: values of `m2` overwrite those of `m1` in place, new
keys are appended in `m2` order. -/
def updateAssoc {α : Type} (m1 m2 : List (String × α)) : List (String × α) :=
  m1.map (fun kv => (kv.1, (lookupStr m2 kv.1).getD kv.2)) ++
    m2.filter (fun kv => (lookupStr m1 kv.1).isNone)

/-- The `sc_map` built by get_project_config / export_to_json from a
table's SensitiveColumn records. -/
def scMap (cols : List SensitiveColumn) : RuleMap :=
  cols.map (fun sc => (sc.column_name, sc.function_name, sc.seed_column))

/-- The SensitiveColumn records re-added by save_project_state from one
rule map. -/
def mkSensitiveColumns (rules : RuleMap) : List SensitiveColumn :=
  rules.map (fun r => ⟨r.1, r.2.1, r.2.2⟩)

/-- `if pt.filter_clause:` — Python truthiness of the optional clause
(`None` and the empty string are falsy). -/
def filterEntry (pt : ProjectTable) : Option (String × String) :=
  if pt.filter_clause.getD "" ≠ "" then some (pt.table_name, pt.filter_clause.getD "")
  else none

/-- `if sc_map:` — a table contributes a PII entry iff it has rules. -/
def piiEntry (pt : ProjectTable) : Option (String × RuleMap) :=
  if pt.sensitive_columns ≠ [] then some (pt.table_name, scMap pt.sensitive_columns) else none

/-- The tuple returned by `get_project_config`. -/
structure ProjectConfig where
  selected_tables : List String
  filters : List (String × String)
  sensitive_columns : List (String × RuleMap)
  name_source : Option (String × Option String)
deriving DecidableEq, Repr

/-- `get_project_config` from config_manager.py: an absent project gives
all-empty results (and an empty name-source dict) instead of an error. -/
def get_project_config (s : Store) (pid : Nat) : ProjectConfig :=
  match findProject s pid with
  | none => ⟨[], [], [], none⟩
  | some p =>
    ⟨(p.tables.filter (fun pt => pt.is_selected)).map (fun pt => pt.table_name),
     p.tables.filterMap filterEntry,
     p.tables.filterMap piiEntry,
     some (p.name_source_type, p.name_source_value)⟩

/-- `all_involved_tables = set(selected) | set(filters) | set(pii)`. -/
def involvedTables (selected : List String) (filters : List (String × String))
    (pii : List (String × RuleMap)) : List String :=
  (selected ++ filters.map Prod.fst ++ pii.map Prod.fst).dedup

/-- The update applied by save_project_state to one existing
ProjectTable: involved tables get selection, filter and a wholesale
rule replacement; all others only lose their selection flag. -/
def updateExistingTable (selected : List String) (filters : List (String × String))
    (pii : List (String × RuleMap)) (pt : ProjectTable) : ProjectTable :=
  if pt.table_name ∈ involvedTables selected filters pii then
    { pt with is_selected := pt.table_name ∈ selected,
              filter_clause := lookupStr filters pt.table_name,
              sensitive_columns := mkSensitiveColumns ((lookupStr pii pt.table_name).getD []) }
  else
    { pt with is_selected := false }

/-- The ProjectTable created by save_project_state for an involved table
name with no existing record. -/
def newTableConfig (selected : List String) (filters : List (String × String))
    (pii : List (String × RuleMap)) (tn : String) : ProjectTable :=
  { table_name := tn,
    is_selected := tn ∈ selected,
    filter_clause := lookupStr filters tn,
    sensitive_columns := mkSensitiveColumns ((lookupStr pii tn).getD []) }

/-- The table list of a project after save_project_state. -/
def saveTables (selected : List String) (filters : List (String × String))
    (pii : List (String × RuleMap)) (tabs : List ProjectTable) : List ProjectTable :=
  tabs.map (updateExistingTable selected filters pii) ++
    ((involvedTables selected filters pii).filter
      (fun tn => ! tabs.any (fun pt => pt.table_name = tn))).map
      (newTableConfig selected filters pii)

/-- The per-project update of save_project_state. -/
def saveProjectUpdate (pid : Nat) (selected : List String)
    (filters : List (String × String)) (pii : List (String × RuleMap))
    (p : Project) : Project :=
  if p.id = pid then { p with tables := saveTables selected filters pii p.tables } else p

/-- `save_project_state` from config_manager.py: raises (typed error)
for an unknown project id; otherwise the merge-upsert over the store. -/
def save_project_state (s : Store) (pid : Nat) (selected : List String)
    (filters : List (String × String)) (pii : List (String × RuleMap)) :
    Except String Store :=
  match findProject s pid with
  | none => .error ("Project ID " ++ toString pid ++ " not found")
  | some _ => .ok (s.map (saveProjectUpdate pid selected filters pii))

/-- The store a caller holds after a save attempt: the new store on
commit, the old store on rollback. -/
def saveOrRollback (s : Store) (pid : Nat) (selected : List String)
    (filters : List (String × String)) (pii : List (String × RuleMap)) : Store :=
  match save_project_state s pid selected filters pii with
  | .ok s2 => s2
  | .error _ => s

/-- `export_to_json` from config_manager.py (the two JSON documents it
writes, keyed by table name). -/
def export_to_json (s : Store) (pid : Nat) :
    Except String (List (String × String) × List (String × RuleMap)) :=
  match findProject s pid with
  | none => .error ("Project ID " ++ toString pid ++ " not found")
  | some p => .ok (p.tables.filterMap filterEntry, p.tables.filterMap piiEntry)

/-- `import_from_json` from config_manager.py, with the two parsed
documents as arguments: fails when both are empty, otherwise overlays
them onto the project's current maps and saves, preserving the current
selection set. -/
def import_from_json (s : Store) (pid : Nat)
    (json_filters : List (String × String)) (json_sensitive : List (String × RuleMap)) :
    Except String Store :=
  if json_filters = [] ∧ json_sensitive = [] then
    .error "找不到設定檔"
  else
    let cfg := get_project_config s pid
    save_project_state s pid cfg.selected_tables
      (updateAssoc cfg.filters json_filters)
      (updateAssoc cfg.sensitive_columns json_sensitive)

/-- C9: `get_project_config` on an absent project id yields an empty
selection set, empty filter map, empty PII map and empty name-source
configuration; the function is total, so no error is raised. -/
theorem C9_absent_project (s : Store) (pid : Nat) (h : findProject s pid = none) :
    get_project_config s pid = ⟨[], [], [], none⟩ := by
  simp [get_project_config, h]

/-- Witness for C9_absent_project: project 2 is absent from a one-project
store. -/
theorem C9_absent_project_witness :
    get_project_config [⟨1, "P", "DEFAULT", none, []⟩] 2 = ⟨[], [], [], none⟩ :=
  C9_absent_project [⟨1, "P", "DEFAULT", none, []⟩] 2 (by decide)

/-- C6: `save_project_state` on an unknown project id fails with the
typed `ValueError` and the caller's store is exactly what it was
(commit-or-rollback modelled by `Except` plus `saveOrRollback`). -/
theorem C6_save_unknown_rollback (s : Store) (pid : Nat) (selected : List String)
    (filters : List (String × String)) (pii : List (String × RuleMap))
    (h : findProject s pid = none) :
    save_project_state s pid selected filters pii =
      .error ("Project ID " ++ toString pid ++ " not found") ∧
    saveOrRollback s pid selected filters pii = s := by
  constructor
  · simp [save_project_state, h]
  · simp [saveOrRollback, save_project_state, h]

/-- Witness for C6_save_unknown_rollback on an empty store. -/
theorem C6_save_unknown_rollback_witness :
    save_project_state [] 7 ["T"] [] [] = .error "Project ID 7 not found" ∧
    saveOrRollback [] 7 ["T"] [] [] = [] := by
  have h := C6_save_unknown_rollback [] 7 ["T"] [] [] (by decide)
  exact ⟨by rw [h.1]; rfl, h.2⟩

theorem lookupStr_eq_none {α : Type} (m : List (String × α)) (k : String) :
    lookupStr m k = none ↔ k ∉ m.map Prod.fst := by
  unfold lookupStr
  rw [Option.map_eq_none', List.find?_eq_none]
  simp only [List.mem_map, decide_eq_true_eq]
  constructor
  · rintro h ⟨kv, hkv, rfl⟩
    exact h kv hkv rfl
  · intro h kv hkv heq
    exact h ⟨kv, hkv, heq⟩

theorem lookupStr_mem {α : Type} (m : List (String × α)) (k : String) (v : α)
    (h : lookupStr m k = some v) : (k, v) ∈ m := by
  unfold lookupStr at h
  rcases Option.map_eq_some'.mp h with ⟨kv, hfind, hsnd⟩
  have h1 := List.mem_of_find?_eq_some hfind
  have h2 := List.find?_some hfind
  simp only [decide_eq_true_eq] at h2
  rcases kv with ⟨k', v'⟩
  cases h2
  cases hsnd
  exact h1

theorem updateAssoc_nil {α : Type} (m : List (String × α)) : updateAssoc [] m = m := by
  unfold updateAssoc
  simp [lookupStr]

theorem scMap_mkSensitiveColumns (rules : RuleMap) :
    scMap (mkSensitiveColumns rules) = rules := by
  unfold scMap mkSensitiveColumns
  rw [List.map_map]
  conv_rhs => rw [← List.map_id rules]
  apply List.map_congr_left
  rintro ⟨a, b, c⟩ _
  rfl

theorem saveProjectUpdate_id (pid : Nat) (selected : List String)
    (filters : List (String × String)) (pii : List (String × RuleMap)) (p : Project) :
    (saveProjectUpdate pid selected filters pii p).id = p.id := by
  unfold saveProjectUpdate; split <;> rfl

theorem updateExistingTable_name (selected : List String) (filters : List (String × String))
    (pii : List (String × RuleMap)) (pt : ProjectTable) :
    (updateExistingTable selected filters pii pt).table_name = pt.table_name := by
  unfold updateExistingTable; split <;> rfl

theorem findProject_map_update (s : Store) (pid : Nat) (selected : List String)
    (filters : List (String × String)) (pii : List (String × RuleMap)) :
    findProject (s.map (saveProjectUpdate pid selected filters pii)) pid =
      (findProject s pid).map (saveProjectUpdate pid selected filters pii) := by
  unfold findProject
  induction s with
  | nil => rfl
  | cons p ps ih =>
    have hid : (saveProjectUpdate pid selected filters pii p).id = p.id :=
      saveProjectUpdate_id pid selected filters pii p
    by_cases h : p.id = pid
    · rw [List.map_cons, List.find?_cons_of_pos _ (by simp [hid, h]),
        List.find?_cons_of_pos _ (by simp [h])]
      rfl
    · rw [List.map_cons, List.find?_cons_of_neg _ (by simp [hid, h]),
        List.find?_cons_of_neg _ (by simp [h]), ih]

theorem findProject_some_id (s : Store) (pid : Nat) (p : Project)
    (hp : findProject s pid = some p) : p.id = pid := by
  have hp' : s.find? (fun q => q.id = pid) = some p := hp
  simpa using List.find?_some hp'

/-- C2: a save leaves every existing TableConfig outside the involved
set with `is_selected := false` and its filter and rules untouched. -/
theorem C2_deselect_preserves (s : Store) (pid : Nat) (selected : List String)
    (filters : List (String × String)) (pii : List (String × RuleMap))
    (p : Project) (hp : findProject s pid = some p)
    (pt : ProjectTable) (hmem : pt ∈ p.tables)
    (hnot : pt.table_name ∉ involvedTables selected filters pii) :
    ∃ s2, save_project_state s pid selected filters pii = .ok s2 ∧
      ∃ p2, findProject s2 pid = some p2 ∧
        ∃ pt2 ∈ p2.tables, pt2.table_name = pt.table_name ∧ pt2.is_selected = false ∧
          pt2.filter_clause = pt.filter_clause ∧
          pt2.sensitive_columns = pt.sensitive_columns := by
  have hpid : p.id = pid := findProject_some_id s pid p hp
  refine ⟨s.map (saveProjectUpdate pid selected filters pii),
    by simp [save_project_state, hp], ?_⟩
  refine ⟨saveProjectUpdate pid selected filters pii p,
    by rw [findProject_map_update, hp]; rfl, ?_⟩
  refine ⟨updateExistingTable selected filters pii pt, ?_, ?_, ?_, ?_, ?_⟩
  · show updateExistingTable selected filters pii pt ∈
      (saveProjectUpdate pid selected filters pii p).tables
    unfold saveProjectUpdate
    rw [if_pos hpid]
    exact List.mem_append_left _ (List.mem_map_of_mem _ hmem)
  · exact updateExistingTable_name selected filters pii pt
  · unfold updateExistingTable
    rw [if_neg hnot]
  · unfold updateExistingTable
    rw [if_neg hnot]
  · unfold updateExistingTable
    rw [if_neg hnot]

/-- The store of the claim's scenario after the first save: T1 selected
with filter `"f"` and one PII rule. -/
def c2Store : Store :=
  [⟨1, "P", "DEFAULT", none,
    [⟨"T1", true, some "f", [⟨"emp_name", "obfuscate_name", some "emp_no"⟩]⟩]⟩]

def c2Table : ProjectTable :=
  ⟨"T1", true, some "f", [⟨"emp_name", "obfuscate_name", some "emp_no"⟩]⟩

theorem saveTables_eq (selected : List String) (filters : List (String × String))
    (pii : List (String × RuleMap)) (tabs : List ProjectTable) :
    saveTables selected filters pii tabs =
      tabs.map (updateExistingTable selected filters pii) ++
      ((involvedTables selected filters pii).filter
        (fun tn => ! tabs.any (fun pt => pt.table_name = tn))).map
        (newTableConfig selected filters pii) := rfl

theorem saveTables_names (selected : List String) (filters : List (String × String))
    (pii : List (String × RuleMap)) (tabs : List ProjectTable) :
    (saveTables selected filters pii tabs).map (fun pt => pt.table_name) =
      tabs.map (fun pt => pt.table_name) ++
      ((involvedTables selected filters pii).filter
        (fun tn => ! tabs.any (fun pt => pt.table_name = tn))) := by
  rw [saveTables_eq, List.map_append, List.map_map, List.map_map]
  congr 1
  · exact List.map_congr_left (fun pt _ => updateExistingTable_name selected filters pii pt)
  · conv_rhs => rw [← List.map_id ((involvedTables selected filters pii).filter
      (fun tn => ! tabs.any (fun pt => pt.table_name = tn)))]
    exact List.map_congr_left (fun tn _ => rfl)

theorem mem_saveTables_names (selected : List String) (filters : List (String × String))
    (pii : List (String × RuleMap)) (tabs : List ProjectTable) (tn : String) :
    tn ∈ (saveTables selected filters pii tabs).map (fun pt => pt.table_name) ↔
      tn ∈ tabs.map (fun pt => pt.table_name) ∨
        tn ∈ involvedTables selected filters pii := by
  rw [saveTables_names, List.mem_append]
  constructor
  · rintro (h | h)
    · exact Or.inl h
    · exact Or.inr (List.mem_of_mem_filter h)
  · rintro (h | h)
    · exact Or.inl h
    · by_cases hex : tn ∈ tabs.map (fun pt => pt.table_name)
      · exact Or.inl hex
      · refine Or.inr (List.mem_filter.mpr ⟨h, ?_⟩)
        simp only [Bool.not_eq_eq_eq_not, Bool.not_true, List.any_eq_false]
        intro pt hpt heq
        exact hex (List.mem_map.mpr ⟨pt, hpt, by simpa using heq⟩)

theorem updateExistingTable_idem (selected : List String) (filters : List (String × String))
    (pii : List (String × RuleMap)) (pt : ProjectTable) :
    updateExistingTable selected filters pii (updateExistingTable selected filters pii pt) =
      updateExistingTable selected filters pii pt := by
  by_cases h : pt.table_name ∈ involvedTables selected filters pii
  · unfold updateExistingTable
    rw [if_pos h]
    dsimp only
    rw [if_pos h]
  · unfold updateExistingTable
    rw [if_neg h]
    dsimp only
    rw [if_neg h]

theorem updateExistingTable_newTable (selected : List String)
    (filters : List (String × String)) (pii : List (String × RuleMap)) (tn : String)
    (h : tn ∈ involvedTables selected filters pii) :
    updateExistingTable selected filters pii (newTableConfig selected filters pii tn) =
      newTableConfig selected filters pii tn := by
  unfold updateExistingTable newTableConfig
  dsimp only
  rw [if_pos h]

theorem saveTables_idem (selected : List String) (filters : List (String × String))
    (pii : List (String × RuleMap)) (tabs : List ProjectTable) :
    saveTables selected filters pii (saveTables selected filters pii tabs) =
      saveTables selected filters pii tabs := by
  have hfilter : (involvedTables selected filters pii).filter
      (fun tn => ! (saveTables selected filters pii tabs).any
        (fun pt => pt.table_name = tn)) = [] := by
    rw [List.filter_eq_nil_iff]
    intro tn htn
    have hmem : tn ∈ (saveTables selected filters pii tabs).map (fun pt => pt.table_name) :=
      (mem_saveTables_names selected filters pii tabs tn).mpr (Or.inr htn)
    rcases List.mem_map.mp hmem with ⟨pt, hpt, heq⟩
    simp only [Bool.not_eq_eq_eq_not, Bool.not_true, Bool.not_eq_false, List.any_eq_true]
    exact ⟨pt, hpt, by simpa using heq⟩
  rw [saveTables_eq selected filters pii (saveTables selected filters pii tabs), hfilter,
    List.map_nil, List.append_nil, saveTables_eq selected filters pii tabs,
    List.map_append, List.map_map, List.map_map]
  congr 1
  · exact List.map_congr_left (fun pt _ => updateExistingTable_idem selected filters pii pt)
  · exact List.map_congr_left (fun tn htn =>
      updateExistingTable_newTable selected filters pii tn (List.mem_of_mem_filter htn))

theorem saveProjectUpdate_idem (pid : Nat) (selected : List String)
    (filters : List (String × String)) (pii : List (String × RuleMap)) (p : Project) :
    saveProjectUpdate pid selected filters pii (saveProjectUpdate pid selected filters pii p) =
      saveProjectUpdate pid selected filters pii p := by
  by_cases h : p.id = pid
  · unfold saveProjectUpdate
    rw [if_pos h]
    dsimp only
    rw [if_pos h, saveTables_idem]
  · unfold saveProjectUpdate
    rw [if_neg h]
    rw [if_neg h]

/-- C7: saving twice with identical arguments leaves the persisted
state exactly as after the first save. -/
theorem C7_save_idempotent (s : Store) (pid : Nat) (selected : List String)
    (filters : List (String × String)) (pii : List (String × RuleMap)) (s1 : Store)
    (h : save_project_state s pid selected filters pii = .ok s1) :
    save_project_state s1 pid selected filters pii = .ok s1 := by
  unfold save_project_state at h ⊢
  cases hf : findProject s pid with
  | none => rw [hf] at h; cases h
  | some p =>
    rw [hf] at h
    have hs1 : s1 = s.map (saveProjectUpdate pid selected filters pii) := by
      cases h; rfl
    subst hs1
    rw [findProject_map_update, hf, Option.map_some']
    dsimp only
    congr 1
    rw [List.map_map]
    exact List.map_congr_left (fun p' _ => saveProjectUpdate_idem pid selected filters pii p')

def c7Store0 : Store := [⟨1, "P", "DEFAULT", none, []⟩]

def c7Store1 : Store :=
  [⟨1, "P", "DEFAULT", none, [⟨"T1", true, some "f", [⟨"c", "anonymize_id", none⟩]⟩]⟩]

/-- Witness for C7_save_idempotent: a save that created T1 re-applied to
its own result store. -/
theorem C7_save_idempotent_witness :
    save_project_state c7Store1 1 ["T1"] [("T1", "f")] [("T1", [("c", "anonymize_id", none)])] =
      .ok c7Store1 :=
  C7_save_idempotent c7Store0 1 ["T1"] [("T1", "f")] [("T1", [("c", "anonymize_id", none)])]
    c7Store1 (by rfl)

/-- Witness for C2_deselect_preserves: saving the empty selection, empty
filters and empty rules after T1 was configured keeps T1's filter and
rules with `is_selected = false`. -/
theorem C2_deselect_preserves_witness :
    ∃ s2, save_project_state c2Store 1 [] [] [] = .ok s2 ∧
      ∃ p2, findProject s2 1 = some p2 ∧
        ∃ pt2 ∈ p2.tables, pt2.table_name = c2Table.table_name ∧ pt2.is_selected = false ∧
          pt2.filter_clause = c2Table.filter_clause ∧
          pt2.sensitive_columns = c2Table.sensitive_columns :=
  C2_deselect_preserves c2Store 1 [] [] []
    ⟨1, "P", "DEFAULT", none, [c2Table]⟩ (by decide) c2Table (by decide) (by decide)

theorem lookupStr_cons {α : Type} (k : String) (v : α) (m : List (String × α)) (t : String) :
    lookupStr ((k, v) :: m) t = if k = t then some v else lookupStr m t := by
  unfold lookupStr
  by_cases h : k = t
  · rw [List.find?_cons_of_pos _ (by simp [h]), if_pos h]
    rfl
  · rw [List.find?_cons_of_neg _ (by simp [h]), if_neg h]

/-- filterEntry produces only entries keyed by the table name, with a
truthy (nonempty) clause value. -/
theorem filterEntry_some (pt : ProjectTable) (e : String × String)
    (h : filterEntry pt = some e) : e.1 = pt.table_name ∧ e.2 ≠ "" ∧
      pt.filter_clause = some e.2 := by
  unfold filterEntry at h
  by_cases hf : pt.filter_clause.getD "" ≠ ""
  · rw [if_pos hf] at h
    cases h
    refine ⟨rfl, hf, ?_⟩
    cases hc : pt.filter_clause with
    | none => rw [hc] at hf; simp at hf
    | some f => simp [hc]
  · rw [if_neg hf] at h
    cases h

/-- piiEntry produces only entries keyed by the table name, with a
nonempty rule map. -/
theorem piiEntry_some (pt : ProjectTable) (e : String × RuleMap)
    (h : piiEntry pt = some e) : e.1 = pt.table_name ∧ e.2 ≠ [] ∧
      e.2 = scMap pt.sensitive_columns := by
  unfold piiEntry at h
  by_cases hc : pt.sensitive_columns ≠ []
  · rw [if_pos hc] at h
    cases h
    refine ⟨rfl, ?_, rfl⟩
    unfold scMap
    simpa using hc
  · rw [if_neg hc] at h
    cases h

/-- A project's filter/PII document lookup in terms of the underlying
table list: with unique table names, the entry for `t` is the entry of
the table named `t`, if any. -/
theorem lookupStr_filterMap_tables {β : Type} (E : ProjectTable → Option (String × β))
    (hE : ∀ pt e, E pt = some e → e.1 = pt.table_name)
    (tabs : List ProjectTable) (t : String)
    (hnd : (tabs.map (fun pt => pt.table_name)).Nodup) :
    lookupStr (tabs.filterMap E) t =
      (tabs.find? (fun pt => pt.table_name = t)).bind (fun pt => (E pt).map Prod.snd) := by
  induction tabs with
  | nil => rfl
  | cons pt tabs ih =>
    simp only [List.map_cons, List.nodup_cons] at hnd
    by_cases hname : pt.table_name = t
    · rw [List.find?_cons_of_pos _ (by simp [hname]), Option.some_bind]
      cases hEpt : E pt with
      | none =>
        simp only [List.filterMap_cons, hEpt, Option.map_none']
        rw [lookupStr_eq_none]
        intro hk
        rcases List.mem_map.mp hk with ⟨kv, hkv, hfst⟩
        rcases List.mem_filterMap.mp hkv with ⟨pt', hpt', hE'⟩
        have hk1 : kv.1 = pt'.table_name := hE pt' kv hE'
        apply hnd.1
        have hpp : pt.table_name = pt'.table_name := by rw [hname, ← hfst]; exact hk1
        rw [hpp]
        exact List.mem_map.mpr ⟨pt', hpt', rfl⟩
      | some e =>
        rcases e with ⟨k, v⟩
        have he1 : k = pt.table_name := hE pt (k, v) hEpt
        simp only [List.filterMap_cons, hEpt]
        rw [lookupStr_cons, if_pos (by rw [he1, hname])]
        rfl
    · rw [List.find?_cons_of_neg _ (by simp [hname])]
      cases hEpt : E pt with
      | none =>
        simp only [List.filterMap_cons, hEpt]
        exact ih hnd.2
      | some e =>
        rcases e with ⟨k, v⟩
        have he1 : k = pt.table_name := hE pt (k, v) hEpt
        simp only [List.filterMap_cons, hEpt]
        rw [lookupStr_cons, if_neg (by rw [he1]; exact hname)]
        exact ih hnd.2

/-- find? by table name commutes with a name-preserving map. -/
theorem find?_map_name_preserving (f : ProjectTable → ProjectTable)
    (hf : ∀ pt, (f pt).table_name = pt.table_name)
    (tabs : List ProjectTable) (t : String) :
    (tabs.map f).find? (fun pt => pt.table_name = t) =
      (tabs.find? (fun pt => pt.table_name = t)).map f := by
  induction tabs with
  | nil => rfl
  | cons pt tabs ih =>
    by_cases h : pt.table_name = t
    · rw [List.map_cons, List.find?_cons_of_pos _ (by simp [hf, h]),
        List.find?_cons_of_pos _ (by simp [h]), Option.map_some']
    · rw [List.map_cons, List.find?_cons_of_neg _ (by simp [hf, h]),
        List.find?_cons_of_neg _ (by simp [h]), ih]

theorem find?_map_newTable (selected : List String) (filters : List (String × String))
    (pii : List (String × RuleMap)) (ns : List String) (t : String) :
    (ns.map (newTableConfig selected filters pii)).find? (fun pt => pt.table_name = t) =
      (ns.find? (fun n => n = t)).map (newTableConfig selected filters pii) := by
  induction ns with
  | nil => rfl
  | cons n ns ih =>
    by_cases h : n = t
    · rw [List.map_cons, List.find?_cons_of_pos _ (by simp [newTableConfig, h]),
        List.find?_cons_of_pos _ (by simp [h]), Option.map_some']
    · rw [List.map_cons, List.find?_cons_of_neg _ (by simp [newTableConfig, h]),
        List.find?_cons_of_neg _ (by simp [h]), ih]

theorem find?_string_self (ns : List String) (t : String) (h : t ∈ ns) :
    ns.find? (fun n => n = t) = some t := by
  induction ns with
  | nil => cases h
  | cons n ns ih =>
    by_cases hn : n = t
    · rw [List.find?_cons_of_pos _ (by simp [hn]), hn]
    · rw [List.find?_cons_of_neg _ (by simp [hn])]
      refine ih ?_
      rcases List.mem_cons.mp h with h' | h'
      · exact absurd h'.symm hn
      · exact h'

theorem find?_name_eq_none (tabs : List ProjectTable) (t : String) :
    tabs.find? (fun pt => pt.table_name = t) = none ↔
      t ∉ tabs.map (fun pt => pt.table_name) := by
  rw [List.find?_eq_none]
  simp only [decide_eq_true_eq, List.mem_map]
  constructor
  · rintro h ⟨pt, hpt, rfl⟩
    exact h pt hpt rfl
  · intro h pt hpt heq
    exact h ⟨pt, hpt, heq⟩

/-- The table record found by name in a saved table list. -/
theorem find?_saveTables (selected : List String) (filters : List (String × String))
    (pii : List (String × RuleMap)) (tabs : List ProjectTable) (t : String) :
    (saveTables selected filters pii tabs).find? (fun pt => pt.table_name = t) =
      match tabs.find? (fun pt => pt.table_name = t) with
      | some pt => some (updateExistingTable selected filters pii pt)
      | none =>
        if t ∈ involvedTables selected filters pii then
          some (newTableConfig selected filters pii t)
        else none := by
  rw [saveTables_eq, List.find?_append,
    find?_map_name_preserving _ (updateExistingTable_name selected filters pii) tabs t,
    find?_map_newTable]
  cases hfind : tabs.find? (fun pt => pt.table_name = t) with
  | some pt => rfl
  | none =>
    rw [Option.map_none']
    have hnot : t ∉ tabs.map (fun pt => pt.table_name) :=
      (find?_name_eq_none tabs t).mp hfind
    by_cases hin : t ∈ involvedTables selected filters pii
    · rw [if_pos hin]
      have hpred : (! tabs.any (fun pt => pt.table_name = t)) = true := by
        simp only [Bool.not_eq_eq_eq_not, Bool.not_true, List.any_eq_false]
        intro pt hpt heq
        exact hnot (List.mem_map.mpr ⟨pt, hpt, by simpa using heq⟩)
      rw [find?_string_self _ t (List.mem_filter.mpr ⟨hin, hpred⟩), Option.map_some',
        Option.none_or]
    · rw [if_neg hin]
      have : ((involvedTables selected filters pii).filter
          (fun tn => ! tabs.any (fun pt => pt.table_name = tn))).find? (fun n => n = t) =
          none := by
        rw [List.find?_eq_none]
        intro n hn
        simp only [decide_eq_true_eq]
        intro heq
        subst heq
        exact hin (List.mem_of_mem_filter hn)
      rw [this, Option.map_none', Option.none_or]

theorem involvedTables_nodup (selected : List String) (filters : List (String × String))
    (pii : List (String × RuleMap)) : (involvedTables selected filters pii).Nodup :=
  List.nodup_dedup _

theorem mem_involvedTables (selected : List String) (filters : List (String × String))
    (pii : List (String × RuleMap)) (t : String) :
    t ∈ involvedTables selected filters pii ↔
      t ∈ selected ∨ t ∈ filters.map Prod.fst ∨ t ∈ pii.map Prod.fst := by
  unfold involvedTables
  rw [List.mem_dedup, List.mem_append, List.mem_append, or_assoc]

theorem saveTables_names_nodup (selected : List String) (filters : List (String × String))
    (pii : List (String × RuleMap)) (tabs : List ProjectTable)
    (hnd : (tabs.map (fun pt => pt.table_name)).Nodup) :
    ((saveTables selected filters pii tabs).map (fun pt => pt.table_name)).Nodup := by
  rw [saveTables_names]
  refine List.Nodup.append hnd
    (List.Nodup.filter _ (involvedTables_nodup selected filters pii)) ?_
  rw [List.disjoint_left]
  intro a ha hafilter
  have hpred := (List.mem_filter.mp hafilter).2
  simp only [Bool.not_eq_eq_eq_not, Bool.not_true, List.any_eq_false] at hpred
  rcases List.mem_map.mp ha with ⟨pt, hpt, rfl⟩
  have := hpred pt hpt
  simp at this

theorem filterEntry_with_clause (pt : ProjectTable) (b : Bool) (oc : Option String)
    (cols : List SensitiveColumn) :
    filterEntry { pt with is_selected := b, filter_clause := oc, sensitive_columns := cols } =
      if oc.getD "" ≠ "" then some (pt.table_name, oc.getD "") else none := rfl

theorem piiEntry_with_cols (pt : ProjectTable) (b : Bool) (oc : Option String)
    (cols : List SensitiveColumn) :
    piiEntry { pt with is_selected := b, filter_clause := oc, sensitive_columns := cols } =
      if cols ≠ [] then some (pt.table_name, scMap cols) else none := rfl

theorem filterEntry_deselect (pt : ProjectTable) :
    filterEntry { pt with is_selected := false } = filterEntry pt := rfl

theorem piiEntry_deselect (pt : ProjectTable) :
    piiEntry { pt with is_selected := false } = piiEntry pt := rfl

theorem filterEntry_newTable (selected : List String) (filters : List (String × String))
    (pii : List (String × RuleMap)) (tn : String) :
    filterEntry (newTableConfig selected filters pii tn) =
      if (lookupStr filters tn).getD "" ≠ "" then some (tn, (lookupStr filters tn).getD "")
      else none := rfl

theorem piiEntry_newTable (selected : List String) (filters : List (String × String))
    (pii : List (String × RuleMap)) (tn : String) :
    piiEntry (newTableConfig selected filters pii tn) =
      if mkSensitiveColumns ((lookupStr pii tn).getD []) ≠ [] then
        some (tn, scMap (mkSensitiveColumns ((lookupStr pii tn).getD []))) else none := rfl

theorem filter_lookup_value (filters : List (String × String)) (t : String)
    (htruthy : ∀ v, lookupStr filters t = some v → v ≠ "") :
    (if (lookupStr filters t).getD "" ≠ "" then
        some (t, (lookupStr filters t).getD "") else none).map Prod.snd =
      lookupStr filters t := by
  cases hlk : lookupStr filters t with
  | none => simp
  | some v =>
    have hv := htruthy v hlk
    simp [hv]

theorem pii_lookup_value (pii : List (String × RuleMap)) (t : String)
    (hne : ∀ rules, lookupStr pii t = some rules → rules ≠ []) :
    (if mkSensitiveColumns ((lookupStr pii t).getD []) ≠ [] then
        some (t, scMap (mkSensitiveColumns ((lookupStr pii t).getD []))) else none).map
        Prod.snd =
      lookupStr pii t := by
  cases hlk : lookupStr pii t with
  | none => simp [mkSensitiveColumns]
  | some rules =>
    have hr := hne rules hlk
    have hmk : mkSensitiveColumns rules ≠ [] := by
      unfold mkSensitiveColumns
      simpa using hr
    simp [hmk, scMap_mkSensitiveColumns]

theorem lookup_export_filters_truthy (tabs : List ProjectTable) (t v : String)
    (h : lookupStr (tabs.filterMap filterEntry) t = some v) : v ≠ "" := by
  rcases List.mem_filterMap.mp (lookupStr_mem _ _ _ h) with ⟨pt, _, hE⟩
  exact (filterEntry_some pt _ hE).2.1

theorem lookup_export_pii_ne_nil (tabs : List ProjectTable) (t : String) (rules : RuleMap)
    (h : lookupStr (tabs.filterMap piiEntry) t = some rules) : rules ≠ [] := by
  rcases List.mem_filterMap.mp (lookupStr_mem _ _ _ h) with ⟨pt, _, hE⟩
  exact (piiEntry_some pt _ hE).2.1

/-- The filter document of a project after a save equals the filter
argument of the save, provided the project carried no truthy filter
before and the argument's values are truthy. -/
theorem lookup_saveTables_filters (selected : List String) (filters : List (String × String))
    (pii : List (String × RuleMap)) (tabs : List ProjectTable) (t : String)
    (hnd : (tabs.map (fun pt => pt.table_name)).Nodup)
    (hclean : tabs.filterMap filterEntry = [])
    (hkeys : ∀ v, lookupStr filters t = some v → v ≠ "") :
    lookupStr ((saveTables selected filters pii tabs).filterMap filterEntry) t =
      lookupStr filters t := by
  rw [lookupStr_filterMap_tables filterEntry (fun pt e h => (filterEntry_some pt e h).1) _ t
    (saveTables_names_nodup selected filters pii tabs hnd), find?_saveTables]
  cases hfind : tabs.find? (fun pt => pt.table_name = t) with
  | some pt0 =>
    have hname : pt0.table_name = t := by simpa using List.find?_some hfind
    have hmem0 : pt0 ∈ tabs := List.mem_of_find?_eq_some hfind
    have hfe0 : filterEntry pt0 = none := List.filterMap_eq_nil_iff.mp hclean pt0 hmem0
    rw [Option.some_bind]
    by_cases hinv : pt0.table_name ∈ involvedTables selected filters pii
    · have hupd : updateExistingTable selected filters pii pt0 = { pt0 with
          is_selected := pt0.table_name ∈ selected,
          filter_clause := lookupStr filters pt0.table_name,
          sensitive_columns := mkSensitiveColumns ((lookupStr pii pt0.table_name).getD []) } := by
        unfold updateExistingTable
        rw [if_pos hinv]
      rw [hupd, filterEntry_with_clause, hname]
      exact filter_lookup_value filters t hkeys
    · have hupd : updateExistingTable selected filters pii pt0 =
          { pt0 with is_selected := false } := by
        unfold updateExistingTable
        rw [if_neg hinv]
      rw [hupd, filterEntry_deselect, hfe0, Option.map_none']
      symm
      rw [lookupStr_eq_none]
      intro hk
      rw [hname] at hinv
      exact hinv ((mem_involvedTables selected filters pii t).mpr (Or.inr (Or.inl hk)))
  | none =>
    by_cases hin : t ∈ involvedTables selected filters pii
    · rw [if_pos hin, Option.some_bind, filterEntry_newTable]
      exact filter_lookup_value filters t hkeys
    · rw [if_neg hin, Option.none_bind]
      symm
      rw [lookupStr_eq_none]
      intro hk
      exact hin ((mem_involvedTables selected filters pii t).mpr (Or.inr (Or.inl hk)))

/-- The PII document of a project after a save equals the PII argument
of the save, under the analogous conditions. -/
theorem lookup_saveTables_pii (selected : List String) (filters : List (String × String))
    (pii : List (String × RuleMap)) (tabs : List ProjectTable) (t : String)
    (hnd : (tabs.map (fun pt => pt.table_name)).Nodup)
    (hclean : tabs.filterMap piiEntry = [])
    (hkeys : ∀ rules, lookupStr pii t = some rules → rules ≠ []) :
    lookupStr ((saveTables selected filters pii tabs).filterMap piiEntry) t =
      lookupStr pii t := by
  rw [lookupStr_filterMap_tables piiEntry (fun pt e h => (piiEntry_some pt e h).1) _ t
    (saveTables_names_nodup selected filters pii tabs hnd), find?_saveTables]
  cases hfind : tabs.find? (fun pt => pt.table_name = t) with
  | some pt0 =>
    have hname : pt0.table_name = t := by simpa using List.find?_some hfind
    have hmem0 : pt0 ∈ tabs := List.mem_of_find?_eq_some hfind
    have hfe0 : piiEntry pt0 = none := List.filterMap_eq_nil_iff.mp hclean pt0 hmem0
    rw [Option.some_bind]
    by_cases hinv : pt0.table_name ∈ involvedTables selected filters pii
    · have hupd : updateExistingTable selected filters pii pt0 = { pt0 with
          is_selected := pt0.table_name ∈ selected,
          filter_clause := lookupStr filters pt0.table_name,
          sensitive_columns := mkSensitiveColumns ((lookupStr pii pt0.table_name).getD []) } := by
        unfold updateExistingTable
        rw [if_pos hinv]
      rw [hupd, piiEntry_with_cols, hname]
      exact pii_lookup_value pii t hkeys
    · have hupd : updateExistingTable selected filters pii pt0 =
          { pt0 with is_selected := false } := by
        unfold updateExistingTable
        rw [if_neg hinv]
      rw [hupd, piiEntry_deselect, hfe0, Option.map_none']
      symm
      rw [lookupStr_eq_none]
      intro hk
      rw [hname] at hinv
      exact hinv ((mem_involvedTables selected filters pii t).mpr (Or.inr (Or.inr hk)))
  | none =>
    by_cases hin : t ∈ involvedTables selected filters pii
    · rw [if_pos hin, Option.some_bind, piiEntry_newTable]
      exact pii_lookup_value pii t hkeys
    · rw [if_neg hin, Option.none_bind]
      symm
      rw [lookupStr_eq_none]
      intro hk
      exact hin ((mem_involvedTables selected filters pii t).mpr (Or.inr (Or.inr hk)))

/-- A save whose selection argument is the project's current selected
set leaves the selected set unchanged (as a set of table names). -/
theorem selected_saveTables (filters : List (String × String)) (pii : List (String × RuleMap))
    (tabs : List ProjectTable) (t : String) :
    (t ∈ ((saveTables ((tabs.filter (fun pt => pt.is_selected)).map (fun pt => pt.table_name))
        filters pii tabs).filter (fun pt => pt.is_selected)).map (fun pt => pt.table_name)) ↔
      t ∈ (tabs.filter (fun pt => pt.is_selected)).map (fun pt => pt.table_name) := by
  constructor
  · intro h
    rcases List.mem_map.mp h with ⟨pt', hpt', hname'⟩
    rcases List.mem_filter.mp hpt' with ⟨hmem', hsel'⟩
    rw [saveTables_eq] at hmem'
    rcases List.mem_append.mp hmem' with hup | hnew
    · rcases List.mem_map.mp hup with ⟨pt0, hpt0, hupdeq⟩
      by_cases hinv : pt0.table_name ∈
          involvedTables ((tabs.filter (fun pt => pt.is_selected)).map (fun pt => pt.table_name))
            filters pii
      · have hupd : updateExistingTable
            ((tabs.filter (fun pt => pt.is_selected)).map (fun pt => pt.table_name)) filters pii
            pt0 = { pt0 with
              is_selected := pt0.table_name ∈
                (tabs.filter (fun pt => pt.is_selected)).map (fun pt => pt.table_name),
              filter_clause := lookupStr filters pt0.table_name,
              sensitive_columns :=
                mkSensitiveColumns ((lookupStr pii pt0.table_name).getD []) } := by
          unfold updateExistingTable
          rw [if_pos hinv]
        rw [← hupdeq, hupd] at hsel'
        simp only [decide_eq_true_eq] at hsel'
        rw [← hname', ← hupdeq, hupd]
        show pt0.table_name ∈ (tabs.filter (fun pt => pt.is_selected)).map
          (fun pt => pt.table_name)
        exact hsel'
      · have hupd : updateExistingTable
            ((tabs.filter (fun pt => pt.is_selected)).map (fun pt => pt.table_name)) filters pii
            pt0 = { pt0 with is_selected := false } := by
          unfold updateExistingTable
          rw [if_neg hinv]
        rw [← hupdeq, hupd] at hsel'
        cases hsel'
    · rcases List.mem_map.mp hnew with ⟨n, _, hneweq⟩
      have hsel'' : (newTableConfig
          ((tabs.filter (fun pt => pt.is_selected)).map (fun pt => pt.table_name)) filters pii
          n).is_selected = true := by rw [hneweq]; exact hsel'
      simp only [newTableConfig, decide_eq_true_eq] at hsel''
      have hname'' : pt'.table_name = n := by rw [← hneweq]; rfl
      rw [← hname', hname'']
      exact hsel''
  · intro h
    have hinv : t ∈ involvedTables
        ((tabs.filter (fun pt => pt.is_selected)).map (fun pt => pt.table_name)) filters pii :=
      (mem_involvedTables _ filters pii t).mpr (Or.inl h)
    rcases List.mem_map.mp h with ⟨pt0, hpt0f, hname0⟩
    rcases List.mem_filter.mp hpt0f with ⟨hpt0, _⟩
    refine List.mem_map.mpr ⟨updateExistingTable
      ((tabs.filter (fun pt => pt.is_selected)).map (fun pt => pt.table_name)) filters pii pt0,
      List.mem_filter.mpr ⟨?_, ?_⟩, by rw [updateExistingTable_name]; exact hname0⟩
    · rw [saveTables_eq]
      exact List.mem_append_left _ (List.mem_map_of_mem _ hpt0)
    · have hupd : updateExistingTable
          ((tabs.filter (fun pt => pt.is_selected)).map (fun pt => pt.table_name)) filters pii
          pt0 = { pt0 with
            is_selected := pt0.table_name ∈
              (tabs.filter (fun pt => pt.is_selected)).map (fun pt => pt.table_name),
            filter_clause := lookupStr filters pt0.table_name,
            sensitive_columns :=
              mkSensitiveColumns ((lookupStr pii pt0.table_name).getD []) } := by
        unfold updateExistingTable
        rw [if_pos (by rw [hname0]; exact hinv)]
      rw [hupd]
      simp only [decide_eq_true_eq]
      rw [hname0]
      exact h

/-- C8 (amended): importing p1's exported documents into p2 overlays
them onto p2's current maps, preserving p2's selection; when p2's
filter and PII maps were empty beforehand and p1's export is not
entirely empty, p2 ends with exactly p1's filter and PII maps. -/
theorem C8_export_import_amended (s : Store) (pid1 pid2 : Nat)
    (jf : List (String × String)) (jp : List (String × RuleMap)) (p1 p2 : Project)
    (hp1 : findProject s pid1 = some p1) (hp2 : findProject s pid2 = some p2)
    (hexp : export_to_json s pid1 = .ok (jf, jp))
    (hne : ¬(jf = [] ∧ jp = []))
    (hf2 : p2.tables.filterMap filterEntry = [])
    (hpii2 : p2.tables.filterMap piiEntry = [])
    (hnd2 : (p2.tables.map (fun pt => pt.table_name)).Nodup) :
    (get_project_config s pid1).filters = jf ∧
    (get_project_config s pid1).sensitive_columns = jp ∧
    ∃ s2, import_from_json s pid2 jf jp = .ok s2 ∧
      (∀ t, lookupStr (get_project_config s2 pid2).filters t = lookupStr jf t) ∧
      (∀ t, lookupStr (get_project_config s2 pid2).sensitive_columns t = lookupStr jp t) ∧
      (∀ t, t ∈ (get_project_config s2 pid2).selected_tables ↔
        t ∈ (get_project_config s pid2).selected_tables) := by
  have hexp' : p1.tables.filterMap filterEntry = jf ∧ p1.tables.filterMap piiEntry = jp := by
    simp only [export_to_json, hp1, Except.ok.injEq, Prod.mk.injEq] at hexp
    exact hexp
  have hcfg1 : get_project_config s pid1 =
      ⟨(p1.tables.filter (fun pt => pt.is_selected)).map (fun pt => pt.table_name),
       p1.tables.filterMap filterEntry, p1.tables.filterMap piiEntry,
       some (p1.name_source_type, p1.name_source_value)⟩ := by
    simp only [get_project_config, hp1]
  set sel2 := (p2.tables.filter (fun pt => pt.is_selected)).map (fun pt => pt.table_name)
    with hsel2
  have hcfg2 : get_project_config s pid2 =
      ⟨sel2, [], [], some (p2.name_source_type, p2.name_source_value)⟩ := by
    simp only [get_project_config, hp2, hf2, hpii2]
  have himp : import_from_json s pid2 jf jp = save_project_state s pid2 sel2 jf jp := by
    unfold import_from_json
    rw [if_neg hne]
    simp only [hcfg2, updateAssoc_nil]
  have hsave : save_project_state s pid2 sel2 jf jp =
      .ok (s.map (saveProjectUpdate pid2 sel2 jf jp)) := by
    simp only [save_project_state, hp2]
  have hpid2 : p2.id = pid2 := findProject_some_id s pid2 p2 hp2
  have hupd : saveProjectUpdate pid2 sel2 jf jp p2 =
      { p2 with tables := saveTables sel2 jf jp p2.tables } := by
    unfold saveProjectUpdate
    rw [if_pos hpid2]
  have hfind2 : findProject (s.map (saveProjectUpdate pid2 sel2 jf jp)) pid2 =
      some { p2 with tables := saveTables sel2 jf jp p2.tables } := by
    rw [findProject_map_update, hp2, Option.map_some', hupd]
  have hcfg2' : get_project_config (s.map (saveProjectUpdate pid2 sel2 jf jp)) pid2 =
      ⟨((saveTables sel2 jf jp p2.tables).filter (fun pt => pt.is_selected)).map
          (fun pt => pt.table_name),
       (saveTables sel2 jf jp p2.tables).filterMap filterEntry,
       (saveTables sel2 jf jp p2.tables).filterMap piiEntry,
       some (p2.name_source_type, p2.name_source_value)⟩ := by
    simp only [get_project_config, hfind2]
  refine ⟨by rw [hcfg1]; exact hexp'.1, by rw [hcfg1]; exact hexp'.2, ?_⟩
  refine ⟨_, by rw [himp, hsave], ?_, ?_, ?_⟩
  · intro t
    rw [hcfg2']
    exact lookup_saveTables_filters sel2 jf jp p2.tables t hnd2 hf2
      (fun v hv => lookup_export_filters_truthy p1.tables t v (by rw [hexp'.1]; exact hv))
  · intro t
    rw [hcfg2']
    exact lookup_saveTables_pii sel2 jf jp p2.tables t hnd2 hpii2
      (fun rules hr => lookup_export_pii_ne_nil p1.tables t rules (by rw [hexp'.2]; exact hr))
  · intro t
    rw [hcfg2', hcfg2, hsel2]
    exact selected_saveTables jf jp p2.tables t

def c8Store : Store :=
  [⟨1, "P1", "DEFAULT", none, [⟨"T1", false, some "f", []⟩]⟩,
   ⟨2, "P2", "DEFAULT", none, [⟨"T2", false, some "g", []⟩]⟩]

def c8StoreAfter : Store :=
  [⟨1, "P1", "DEFAULT", none, [⟨"T1", false, some "f", []⟩]⟩,
   ⟨2, "P2", "DEFAULT", none,
    [⟨"T2", false, some "g", []⟩, ⟨"T1", false, some "f", []⟩]⟩]

/-- C8: the claim says the round trip reproduces p1's filter map
exactly in p2, but import overlays key-wise: p2's pre-existing filter
on T2 (a table p1's export does not mention) is retained, so p2's
filter map differs from p1's at T2. -/
theorem C8_roundtrip_counterexample :
    export_to_json c8Store 1 = .ok ([("T1", "f")], []) ∧
    import_from_json c8Store 2 [("T1", "f")] [] = .ok c8StoreAfter ∧
    lookupStr (get_project_config c8StoreAfter 2).filters "T2" = some "g" ∧
    lookupStr (get_project_config c8Store 1).filters "T2" = none :=
  ⟨rfl, rfl, rfl, rfl⟩

def c8wStore : Store :=
  [⟨1, "P1", "DEFAULT", none, [⟨"T1", false, some "f", [⟨"c", "clear_content", none⟩]⟩]⟩,
   ⟨2, "P2", "DEFAULT", none, []⟩]

/-- Witness for C8_export_import_amended: p2 starts with no tables at
all, p1 exports one filter and one PII rule. -/
theorem C8_export_import_amended_witness :
    (get_project_config c8wStore 1).filters = [("T1", "f")] ∧
    (get_project_config c8wStore 1).sensitive_columns =
      [("T1", [("c", "clear_content", none)])] ∧
    ∃ s2, import_from_json c8wStore 2 [("T1", "f")]
        [("T1", [("c", "clear_content", none)])] = .ok s2 ∧
      (∀ t, lookupStr (get_project_config s2 2).filters t = lookupStr [("T1", "f")] t) ∧
      (∀ t, lookupStr (get_project_config s2 2).sensitive_columns t =
        lookupStr [("T1", [("c", "clear_content", none)])] t) ∧
      (∀ t, t ∈ (get_project_config s2 2).selected_tables ↔
        t ∈ (get_project_config c8wStore 2).selected_tables) :=
  C8_export_import_amended c8wStore 1 2 [("T1", "f")] [("T1", [("c", "clear_content", none)])]
    ⟨1, "P1", "DEFAULT", none, [⟨"T1", false, some "f", [⟨"c", "clear_content", none⟩]⟩]⟩
    ⟨2, "P2", "DEFAULT", none, []⟩ rfl rfl rfl (by decide) rfl rfl (by decide)

/-! ## db_replicator.py: apply_anonymization

A chunk (pandas DataFrame) is a column list plus string rows; `funcs`
abstracts the `globals()[func_name]` dynamic dispatch into the
transform functions above, and `salt` is `DATE_SALT`.  Python `.upper()`
on the ASCII table names is `Char.toUpper` per code point. -/

structure DataFrame where
  cols : List String
  rows : List (List String)
deriving DecidableEq, Repr

/-- `str.upper()` as a code-point map. -/
def upperKey (s : String) : List Char := s.toList.map Char.toUpper

def colIndex (df : DataFrame) (c : String) : Option Nat :=
  df.cols.indexOf? c

/-- One ColumnRule application inside `apply_anonymization`: skip when
the column is absent from the chunk; when a seed column is configured
but absent, warn and skip; otherwise apply the function per row, with
`f"{row[seed_col]}_{DATE_SALT}"` as seed material when a seed column is
configured and no seed material otherwise. -/
def applyRule (funcs : String → String → Option String → String) (salt : String)
    (df : DataFrame) (rule : String × String × Option String) : DataFrame :=
  match colIndex df rule.1 with
  | none => df
  | some ci =>
    match rule.2.2 with
    | some seed_col =>
      match colIndex df seed_col with
      | none => df
      | some si =>
        { df with rows := df.rows.map (fun row =>
            row.set ci (funcs rule.2.1 (row.getD ci "")
              (some ((row.getD si "") ++ "_" ++ salt)))) }
    | none =>
      { df with rows := df.rows.map (fun row =>
          row.set ci (funcs rule.2.1 (row.getD ci "") none)) }

/-- `apply_anonymization` from db_replicator.py: the dict comprehension
`{k.upper(): k for k in SENSITIVE_COLUMNS}` keeps the last key with a
given upper-cased form, the chunk is returned unchanged when no key
matches the upper-cased table name, and otherwise the matched key's
rules are folded over the chunk. -/
def apply_anonymization (sensitive_columns : List (String × RuleMap))
    (funcs : String → String → Option String → String) (salt : String)
    (df : DataFrame) (table_name : String) : DataFrame :=
  match sensitive_columns.reverse.find?
      (fun kv => upperKey kv.1 = upperKey table_name) with
  | none => df
  | some kv => kv.2.foldl (applyRule funcs salt) df

/-- C10: the rules applied to a chunk are exactly those stored under a
configured table key whose upper-cased form equals the upper-cased
processed table name, and a chunk with no such key (case-insensitively)
is returned completely unchanged. -/
theorem C10_case_insensitive_rules (cfg : List (String × RuleMap))
    (funcs : String → String → Option String → String) (salt : String)
    (df : DataFrame) (table_name : String) :
    ((∀ kv ∈ cfg, upperKey kv.1 ≠ upperKey table_name) →
      apply_anonymization cfg funcs salt df table_name = df) ∧
    ((∀ kv ∈ cfg, upperKey kv.1 ≠ upperKey table_name) ∨
      ∃ kv ∈ cfg, upperKey kv.1 = upperKey table_name ∧
        apply_anonymization cfg funcs salt df table_name =
          kv.2.foldl (applyRule funcs salt) df) := by
  constructor
  · intro h
    have hnone : cfg.reverse.find? (fun kv => upperKey kv.1 = upperKey table_name) = none := by
      rw [List.find?_eq_none]
      intro kv hkv
      simp only [decide_eq_true_eq]
      exact h kv (List.mem_reverse.mp hkv)
    simp only [apply_anonymization, hnone]
  · cases hf : cfg.reverse.find? (fun kv => upperKey kv.1 = upperKey table_name) with
    | none =>
      left
      intro kv hkv
      have := List.find?_eq_none.mp hf kv (List.mem_reverse.mpr hkv)
      simpa using this
    | some kv =>
      right
      refine ⟨kv, List.mem_reverse.mp (List.mem_of_find?_eq_some hf),
        by simpa using List.find?_some hf, ?_⟩
      simp only [apply_anonymization, hf]

/-- Witness for C10_case_insensitive_rules: a chunk for a table absent
from the configuration passes through unchanged. -/
theorem C10_case_insensitive_rules_witness :
    apply_anonymization [("Emp_Data", [("c", "clear_content", none)])] (fun _ v _ => v)
      "salt" ⟨["c"], [["x"]]⟩ "ZZZ" = ⟨["c"], [["x"]]⟩ :=
  (C10_case_insensitive_rules [("Emp_Data", [("c", "clear_content", none)])] (fun _ v _ => v)
    "salt" ⟨["c"], [["x"]]⟩ "ZZZ").1 (by decide)

example :
    apply_anonymization [("Emp_Data", [("c", "blankit", none)])]
      (fun fname v _ => if fname = "blankit" then "" else v) "salt"
      ⟨["c", "d"], [["x", "y"]]⟩ "EMP_DATA" = ⟨["c", "d"], [["", "y"]]⟩ := by decide

end DBCloner
